import Mathlib

/-!
Verification of the transactional order-fulfillment core of the
`go-ai-store` e-commerce backend (services `CartService` / `OrderService`
over the sqlc `Store` facade).

The database state is shallowly embedded as lists of rows; each sqlc
query from `db/queries/*.sql` becomes a pure function on that state, and
each service method becomes a state-passing function returning
`Except Err _ × DB`.  `ExecTx` is embedded with its documented semantics:
the transaction body either commits (its final state is kept) or any
error rolls the state back to the snapshot taken at `Begin`.

Storage-level failures (the `if err != nil` branches on writes) are made
explicit through a `FailSpec` record of injection flags so that
atomicity / partial-failure behaviour is quantified over every failure
pattern the Go code can observe.

Modelling conventions:
* `int32` database integers are modelled as `Int` (no arithmetic in the
  verified paths can overflow 32 bits for schema-valid stocks/quantities
  reached by these operations);
* `DECIMAL(10,2)` money is modelled exactly as an integer count of
  cents; on such values the Go round trip through `float64` and
  `fmt.Sprintf("%.2f", _)` is abstracted away (the binary floating
  point intermediate is out of scope of this embedding, see C9);
* `created_at` / `updated_at` timestamps are not modelled: no verified
  property reads them.
-/

namespace GoAiStore

/-- A row of `products` (id, `DECIMAL(10,2)` price in cents, `int32`
stock, `deleted_at IS NOT NULL` as a flag). -/
structure Product where
  id : Int
  price : Int
  stock : Int
  deleted : Bool
deriving DecidableEq, Repr

/-- A row of `carts` (`user_id` is UNIQUE over live rows per the schema). -/
structure Cart where
  id : Int
  userID : Int
  deleted : Bool
deriving DecidableEq, Repr

/-- A row of `cart_items`; `UNIQUE(cart_id, product_id)` in the schema. -/
structure CartItem where
  id : Int
  cartID : Int
  productID : Int
  quantity : Int
  deleted : Bool
deriving DecidableEq, Repr

/-- The `order_status` enum. -/
inductive OrderStatus where
  | pending
  | confirmed
  | shipped
  | delivered
  | cancelled
deriving DecidableEq, Repr

/-- A row of `orders`. -/
structure Order where
  id : Int
  userID : Int
  status : OrderStatus
  totalAmount : Int
  deleted : Bool
deriving DecidableEq, Repr

/-- A row of `order_items` (price at time of purchase is copied in). -/
structure OrderItem where
  id : Int
  orderID : Int
  productID : Int
  quantity : Int
  price : Int
  deleted : Bool
deriving DecidableEq, Repr

/-- A row of `order_idempotency_keys`; `order_id` is nullable
(`NULL` = pending entry, set = resolved entry). -/
structure IdemKey where
  userID : Int
  key : String
  orderID : Option Int
deriving DecidableEq, Repr

/-- The database state: the tables the order core touches, plus the
`SERIAL` counters used to mint fresh primary keys. -/
structure DB where
  products : List Product
  carts : List Cart
  cartItems : List CartItem
  orders : List Order
  orderItems : List OrderItem
  idemKeys : List IdemKey
  nextOrderID : Int
  nextOrderItemID : Int
  nextCartID : Int
  nextCartItemID : Int
deriving DecidableEq, Repr

/-- The error kinds of the services (`internal/services` sentinel errors)
plus a tagged constructor standing for any wrapped storage failure. -/
inductive Err where
  | emptyCart
  | productNotFound
  | insufficientStock
  | cartNotFound
  | cartItemNotFound
  | orderNotFound
  | unauthorizedOrder
  | orderNotCancellable
  | duplicateOrder
  | storage (tag : Nat)
deriving DecidableEq, Repr

/-- Decidable equality for `Except` results, used to evaluate runs on
concrete states. -/
instance instDecEqExcept {ε α : Type} [DecidableEq ε] [DecidableEq α] :
    DecidableEq (Except ε α) := fun x y =>
  match x, y with
  | .ok a, .ok b =>
    if h : a = b then isTrue (by rw [h]) else isFalse (fun hc => h (Except.ok.inj hc))
  | .ok _, .error _ => isFalse (fun hc => Except.noConfusion hc)
  | .error _, .ok _ => isFalse (fun hc => Except.noConfusion hc)
  | .error e, .error f =>
    if h : e = f then isTrue (by rw [h]) else isFalse (fun hc => h (Except.error.inj hc))

/-! ## Store primitives (one per sqlc query used by the order core) -/

/-- Query `GetCartByUserID`: first live cart of the user. -/
def getCartByUserID (db : DB) (userID : Int) : Option Cart :=
  db.carts.find? (fun c => c.userID == userID && !c.deleted)

/-- Query `CreateCart`: insert a cart for the user, minting a fresh id. -/
def createCart (db : DB) (userID : Int) : Cart × DB :=
  let c : Cart := ⟨db.nextCartID, userID, false⟩
  (c, { db with carts := db.carts ++ [c], nextCartID := db.nextCartID + 1 })

/-- Query `ListCartItems`: live items of a cart. -/
def listCartItems (db : DB) (cartID : Int) : List CartItem :=
  db.cartItems.filter (fun it => it.cartID == cartID && !it.deleted)

/-- Query `GetProductByID`: live product with the given id. -/
def getProductByID (db : DB) (id : Int) : Option Product :=
  db.products.find? (fun p => p.id == id && !p.deleted)

/-- Modelled from the spec: the SQL of `GetProductsByIDsForUpdate` is not
in the sources (only its mocks and callers are); per section 6 of the
spec it is the batched "lock these product rows for update" read, i.e.
`SELECT * FROM products WHERE id = ANY($1) AND deleted_at IS NULL FOR
UPDATE` in the style of the sibling queries.  The rows returned are the
live products whose id is in the list; the lock itself is represented by
`ExecTx` bodies running atomically. -/
def getProductsByIDsForUpdate (db : DB) (ids : List Int) : List Product :=
  db.products.filter (fun p => !p.deleted && ids.contains p.id)

/-- Query `UpdateProductStock`: set the stock of the live product rows
with this id. -/
def updateProductStock (db : DB) (id : Int) (stock : Int) : DB :=
  { db with
    products := db.products.map (fun p =>
      if p.id == id && !p.deleted then { p with stock := stock } else p) }

/-- Query `CreateOrder`: insert a pending order, minting a fresh id. -/
def createOrder (db : DB) (userID : Int) (total : Int) : Order × DB :=
  let o : Order := ⟨db.nextOrderID, userID, .pending, total, false⟩
  (o, { db with orders := db.orders ++ [o], nextOrderID := db.nextOrderID + 1 })

/-- Query `CreateOrderItem`: insert an order line item. -/
def createOrderItemRow (db : DB) (orderID productID quantity : Int) (price : Int) : DB :=
  { db with
    orderItems := db.orderItems ++ [⟨db.nextOrderItemID, orderID, productID, quantity, price, false⟩],
    nextOrderItemID := db.nextOrderItemID + 1 }

/-- Query `SoftDeleteCartItemsByCartID`: soft-delete every live item of
the cart. -/
def softDeleteCartItemsByCartID (db : DB) (cartID : Int) : DB :=
  { db with
    cartItems := db.cartItems.map (fun it =>
      if it.cartID == cartID && !it.deleted then { it with deleted := true } else it) }

/-- Query `SoftDeleteCartItem`: soft-delete one live item by id. -/
def softDeleteCartItem (db : DB) (id : Int) : DB :=
  { db with
    cartItems := db.cartItems.map (fun it =>
      if it.id == id && !it.deleted then { it with deleted := true } else it) }

/-- Query `GetCartItem`: live item of a cart for a product. -/
def getCartItem (db : DB) (cartID productID : Int) : Option CartItem :=
  db.cartItems.find? (fun it => it.cartID == cartID && it.productID == productID && !it.deleted)

/-- Query `GetCartItemByID`: live item by primary key. -/
def getCartItemByID (db : DB) (id : Int) : Option CartItem :=
  db.cartItems.find? (fun it => it.id == id && !it.deleted)

/-- Query `UpdateCartItemQuantity`: set the quantity of the live item. -/
def updateCartItemQuantity (db : DB) (id quantity : Int) : DB :=
  { db with
    cartItems := db.cartItems.map (fun it =>
      if it.id == id && !it.deleted then { it with quantity := quantity } else it) }

/-- Query `RestoreCartItem`: un-soft-delete the `(cart, product)` row,
overwriting its quantity with the new one; reports `ErrNoRows` (here
`none`) when no soft-deleted row exists. -/
def restoreCartItem (db : DB) (cartID productID quantity : Int) : Option CartItem × DB :=
  match db.cartItems.find? (fun it => it.cartID == cartID && it.productID == productID && it.deleted) with
  | none => (none, db)
  | some it =>
    (some { it with quantity := quantity, deleted := false },
     { db with
       cartItems := db.cartItems.map (fun x =>
         if x.cartID == cartID && x.productID == productID && x.deleted then
           { x with quantity := quantity, deleted := false }
         else x) })

/-- Query `CreateCartItem`: insert a live cart item, minting a fresh id. -/
def createCartItem (db : DB) (cartID productID quantity : Int) : CartItem × DB :=
  let it : CartItem := ⟨db.nextCartItemID, cartID, productID, quantity, false⟩
  (it, { db with cartItems := db.cartItems ++ [it], nextCartItemID := db.nextCartItemID + 1 })

/-- Query `GetOrderByID`: live order by primary key. -/
def getOrderByID (db : DB) (id : Int) : Option Order :=
  db.orders.find? (fun o => o.id == id && !o.deleted)

/-- Query `UpdateOrderStatus`: set the status of the live order rows with
this id, returning the updated row (`none` models `ErrNoRows`). -/
def updateOrderStatusPrim (db : DB) (id : Int) (status : OrderStatus) : Option Order × DB :=
  match db.orders.find? (fun o => o.id == id && !o.deleted) with
  | none => (none, db)
  | some o =>
    (some { o with status := status },
     { db with
       orders := db.orders.map (fun x =>
         if x.id == id && !x.deleted then { x with status := status } else x) })

/-- Query `ListOrderItems`: live items of an order. -/
def listOrderItems (db : DB) (orderID : Int) : List OrderItem :=
  db.orderItems.filter (fun it => it.orderID == orderID && !it.deleted)

/-- Query `GetIdempotencyKey`: the `(user, key)` registry row (this table
has no soft delete). -/
def getIdempotencyKey (db : DB) (userID : Int) (key : String) : Option IdemKey :=
  db.idemKeys.find? (fun e => e.userID == userID && e.key == key)

/-- Query `CreateIdempotencyKey`: insert the `(user, key) → order`
mapping; `UNIQUE(user_id, idempotency_key)` makes a duplicate insert a
conflict error, modelled as leaving the table unchanged (the caller
ignores the error). -/
def createIdempotencyKey (db : DB) (userID : Int) (key : String) (orderID : Option Int) : DB :=
  match getIdempotencyKey db userID key with
  | some _ => db
  | none => { db with idemKeys := db.idemKeys ++ [⟨userID, key, orderID⟩] }

/-- Convenience projection: the stock of the live product with this id. -/
def productStock (db : DB) (id : Int) : Option Int :=
  (getProductByID db id).map (·.stock)

/-! ## Storage-failure injection

Each write the Go services perform checks `err != nil`; `FailSpec`
decides, per call site (and per loop index for calls inside loops),
whether the underlying storage call fails.  `noFail` is the run in which
storage never fails. -/

/-- Which storage calls of a run fail.  Loop call sites are indexed by
the loop counter. -/
structure FailSpec where
  lockProductsFail : Bool
  createOrderFail : Bool
  createOrderItemFail : Nat → Bool
  updateStockFail : Nat → Bool
  clearCartFail : Bool
  createIdemKeyFail : Bool
  cancelUpdateStatusFail : Bool
  cancelListItemsFail : Bool
  restoreStockFail : Nat → Bool

/-- The run in which no storage call fails. -/
def noFail : FailSpec :=
  ⟨false, false, fun _ => false, fun _ => false, false, false, false, false, fun _ => false⟩

/-! ## The services

Each Go method becomes a function `… → DB → Except Err α × DB`: the
first component is the returned value or error, the second the database
state after the call. -/

/-- `CartService.GetOrCreateCart`: the user's live cart, created when
absent (`pgx.ErrNoRows`). -/
def GetOrCreateCart (userID : Int) (db : DB) : Cart × DB :=
  match getCartByUserID db userID with
  | some c => (c, db)
  | none => createCart db userID

/-- `CartService.AddToCart` (`part_017` lines 56–130): resolve/create the
cart, check the product and its stock, then merge into the active item,
else resurrect a soft-deleted row, else insert a new row.  The
`UpdateCartTimestamp` call only touches `updated_at`, which is not
modelled. -/
def AddToCart (userID productID quantity : Int) (db : DB) : Except Err Unit × DB :=
  let (cart, db) := GetOrCreateCart userID db
  match getProductByID db productID with
  | none => (.error .productNotFound, db)
  | some product =>
    if product.stock < quantity then (.error .insufficientStock, db)
    else
      match getCartItem db cart.id productID with
      | some existing =>
        let newQuantity := existing.quantity + quantity
        if product.stock < newQuantity then (.error .insufficientStock, db)
        else (.ok (), updateCartItemQuantity db existing.id newQuantity)
      | none =>
        match restoreCartItem db cart.id productID quantity with
        | (some _, db) => (.ok (), db)
        | (none, db) => (.ok (), (createCartItem db cart.id productID quantity).2)

/-- `CartService.RemoveCartItem` (`part_017` lines 185–221): the item
must exist and belong to the caller's own cart; removal is a soft
delete. -/
def RemoveCartItem (userID itemID : Int) (db : DB) : Except Err Unit × DB :=
  match getCartByUserID db userID with
  | none => (.error .cartNotFound, db)
  | some cart =>
    match getCartItemByID db itemID with
    | none => (.error .cartItemNotFound, db)
    | some item =>
      if item.cartID != cart.id then (.error .cartItemNotFound, db)
      else (.ok (), softDeleteCartItem db itemID)

/-- `CartService.ClearCart` (`part_017` lines 224–239): soft-delete all
live items of the user's cart; no cart is a no-op success. -/
def ClearCart (userID : Int) (db : DB) : Except Err Unit × DB :=
  match getCartByUserID db userID with
  | none => (.ok (), db)
  | some cart => (.ok (), softDeleteCartItemsByCartID db cart.id)

/-- The stock-validation / total-accumulation loop of
`CreateOrderFromCart` (the first `for _, item := range cartItems` in the
`ExecTx` body), running over the locked products. -/
def validateAndTotal (products : List Product) : List CartItem → Int → Except Err Int
  | [], acc => .ok acc
  | item :: rest, acc =>
    match products.find? (fun p => p.id == item.productID) with
    | none => .error .productNotFound
    | some product =>
      if product.stock < item.quantity then .error .insufficientStock
      else validateAndTotal products rest (acc + product.price * item.quantity)

/-- The second loop of the `ExecTx` body: insert each order item (price
copied from the locked product; its `%.2f` reformatting is the identity
on cents-exact values) and write the decremented stock computed from
the locked snapshot. -/
def insertItemsAndDecrement (fs : FailSpec) (products : List Product) (orderID : Int) :
    List CartItem → Nat → DB → Except Err DB
  | [], _, db => .ok db
  | item :: rest, i, db =>
    let product := (products.find? (fun p => p.id == item.productID)).getD ⟨0, 0, 0, false⟩
    if fs.createOrderItemFail i then .error (.storage 2)
    else
      let db := createOrderItemRow db orderID item.productID item.quantity product.price
      if fs.updateStockFail i then .error (.storage 3)
      else
        insertItemsAndDecrement fs products orderID rest (i + 1)
          (updateProductStock db product.id (product.stock - item.quantity))

/-- The `ExecTx` body of `CreateOrderFromCart`: lock the product rows,
validate against the locked stock, compute the total, insert the order
and its items, decrement stock, and clear the cart. -/
def orderTxBody (fs : FailSpec) (userID cartID : Int) (cartItems : List CartItem) (db : DB) :
    Except Err (Order × DB) :=
  if fs.lockProductsFail then .error (.storage 0)
  else
    let productIDs := cartItems.map (·.productID)
    let products := getProductsByIDsForUpdate db productIDs
    if products.length != productIDs.length then .error .productNotFound
    else
      match validateAndTotal products cartItems 0 with
      | .error e => .error e
      | .ok totalAmount =>
        if fs.createOrderFail then .error (.storage 1)
        else
          let (order, db) := createOrder db userID totalAmount
          match insertItemsAndDecrement fs products order.id cartItems 0 db with
          | .error e => .error e
          | .ok db =>
            if fs.clearCartFail then .error (.storage 4)
            else .ok (order, softDeleteCartItemsByCartID db cartID)

/-- `OrderService.CreateOrderFromCart` (`cart_service_test.go` lines
765–887): read the cart and its items outside the transaction, then run
`orderTxBody` through `ExecTx`, which commits the body's final state or,
on any error, rolls back to the pre-transaction state (`SQLStore.ExecTx`,
`part_006` lines 79–95). -/
def CreateOrderFromCart (fs : FailSpec) (userID : Int) (db : DB) : Except Err Order × DB :=
  match getCartByUserID db userID with
  | none => (.error .emptyCart, db)
  | some cart =>
    if (listCartItems db cart.id).isEmpty then (.error .emptyCart, db)
    else
      match orderTxBody fs userID cart.id (listCartItems db cart.id) db with
      | .error e => (.error e, db)
      | .ok (order, db') => (.ok order, db')

/-- `OrderService.GetOrderByID`: ownership-gated read (admins bypass the
check).  `buildOrderResponse` only performs reads, so the row itself
stands for the response. -/
def GetOrderByIDService (userID orderID : Int) (isAdmin : Bool) (db : DB) : Except Err Order :=
  match getOrderByID db orderID with
  | none => .error .orderNotFound
  | some o =>
    if !isAdmin && o.userID != userID then .error .unauthorizedOrder
    else .ok o

/-- The fall-through of `CreateOrderWithIdempotency`: create the order
through `CreateOrderFromCart`, then record the key best-effort (the
insert error is discarded with `_, _ =`, so a failed record still
returns the successful order). -/
def createAndRecord (fs : FailSpec) (userID : Int) (key : String) (db : DB) :
    Except Err Order × DB :=
  match CreateOrderFromCart fs userID db with
  | (.error e, db') => (.error e, db')
  | (.ok order, db') =>
    if key != "" && !fs.createIdemKeyFail then
      (.ok order, createIdempotencyKey db' userID key (some order.id))
    else (.ok order, db')

/-- `OrderService.CreateOrderWithIdempotency` (`cart_service_test.go`
lines 724–761): empty key skips dedup entirely; a resolved entry returns
the re-fetched order; a pending entry fails `DuplicateOrder`; otherwise
fall through to `createAndRecord`. -/
def CreateOrderWithIdempotency (fs : FailSpec) (userID : Int) (key : String) (db : DB) :
    Except Err Order × DB :=
  if key != "" then
    match getIdempotencyKey db userID key with
    | some entry =>
      match entry.orderID with
      | some oid => (GetOrderByIDService userID oid false db, db)
      | none => (.error .duplicateOrder, db)
    | none => createAndRecord fs userID key db
  else createAndRecord fs userID key db

/-- The stock-restoration loop of `CancelOrder`: each item's product is
re-fetched (`continue` skips a missing product) and its stock increased;
this loop runs outside any transaction, so on failure the state reached
so far is kept. -/
def restoreLoop (fs : FailSpec) : List OrderItem → Nat → DB → Except Err Unit × DB
  | [], _, db => (.ok (), db)
  | item :: rest, i, db =>
    match getProductByID db item.productID with
    | none => restoreLoop fs rest (i + 1) db
    | some product =>
      if fs.restoreStockFail i then (.error (.storage 6), db)
      else restoreLoop fs rest (i + 1) (updateProductStock db product.id (product.stock + item.quantity))

/-- `OrderService.CancelOrder` (`cart_service_test.go` lines 987–1044):
fetch, check ownership and the pending status, set the status to
`cancelled`, then restore stock item by item — each step a separate
store call, with no enclosing transaction. -/
def CancelOrder (fs : FailSpec) (userID orderID : Int) (db : DB) : Except Err Order × DB :=
  match getOrderByID db orderID with
  | none => (.error .orderNotFound, db)
  | some order =>
    if order.userID != userID then (.error .unauthorizedOrder, db)
    else if order.status != .pending then (.error .orderNotCancellable, db)
    else if fs.cancelUpdateStatusFail then (.error (.storage 5), db)
    else
      match updateOrderStatusPrim db orderID .cancelled with
      | (none, db1) => (.error (.storage 9), db1)
      | (some updatedOrder, db1) =>
        if fs.cancelListItemsFail then (.error (.storage 7), db1)
        else
          match restoreLoop fs (listOrderItems db1 orderID) 0 db1 with
          | (.error e, db2) => (.error e, db2)
          | (.ok _, db2) => (.ok updatedOrder, db2)

/-- Modelled from the spec: section 5's concurrency discipline — concurrent
`CreateOrderFromCart` conversions touching a common product serialize on
the exclusive row lock taken by `GetProductsByIDsForUpdate`, each later
transaction re-reading the stock committed by the earlier one.  A set of
concurrent calls is therefore modelled as the calls running one after
another, in an arbitrary order, each against the previous call's
committed state. -/
def runSerial (fs : FailSpec) (users : List Int) (db : DB) : List (Except Err Order) × DB :=
  match users with
  | [] => ([], db)
  | u :: rest =>
    ((CreateOrderFromCart fs u db).1 :: (runSerial fs rest (CreateOrderFromCart fs u db).2).1,
     (runSerial fs rest (CreateOrderFromCart fs u db).2).2)

/-! ## List helper lemmas -/

/-- `find?` commutes with a `map` whose function preserves the predicate. -/
theorem find?_map_pred {α : Type} (f : α → α) (p : α → Bool) (hf : ∀ a, p (f a) = p a) :
    ∀ l : List α, (l.map f).find? p = (l.find? p).map f := by
  intro l
  induction l with
  | nil => rfl
  | cons a t ih =>
    by_cases h : p a = true
    · simp [List.find?_cons_of_pos, h, hf a]
    · have h' : p (f a) = false := by rw [hf a]; exact Bool.not_eq_true _ |>.mp h
      simp only [List.map_cons]
      rw [List.find?_cons_of_neg _ (by simp [h']), List.find?_cons_of_neg _ (by simp [h]), ih]

/-- `find?` over an append whose left part has no match. -/
theorem find?_append_left_none {α : Type} {p : α → Bool} {l₁ l₂ : List α}
    (h : ∀ a ∈ l₁, p a = false) : (l₁ ++ l₂).find? p = l₂.find? p := by
  induction l₁ with
  | nil => rfl
  | cons a t ih =>
    rw [List.cons_append, List.find?_cons_of_neg _ (by simp [h a (by simp)])]
    exact ih (fun x hx => h x (by simp [hx]))

/-- A `filter` whose predicate never holds is empty. -/
theorem filter_none {α : Type} {p : α → Bool} {l : List α}
    (h : ∀ a ∈ l, p a = false) : l.filter p = [] := by
  induction l with
  | nil => rfl
  | cons a t ih =>
    rw [List.filter_cons_of_neg (by simp [h a (by simp)])]
    exact ih (fun x hx => h x (by simp [hx]))

/-- A `map` whose function fixes every element is the identity. -/
theorem map_id_of_fix {α : Type} {f : α → α} {l : List α}
    (h : ∀ a ∈ l, f a = a) : l.map f = l := by
  induction l with
  | nil => rfl
  | cons a t ih =>
    simp only [List.map_cons, h a (by simp)]
    rw [ih (fun x hx => h x (by simp [hx]))]

/-! ## Frame and characterization lemmas for the store primitives -/

/-- List form of `getProductByID_of_mem`: with distinct ids, searching
for a live row with the id of a known live member finds that member. -/
theorem find?_product_of_mem {p : Product} {x : Int} :
    ∀ l : List Product, (l.map (·.id)).Nodup → p ∈ l → p.id = x → p.deleted = false →
      l.find? (fun q => q.id == x && !q.deleted) = some p := by
  intro l
  induction l with
  | nil => intro _ hp; cases hp
  | cons a t ih =>
    intro hnd hp hid hd
    have hnd' : (∀ y ∈ t, ¬ y.id = a.id) ∧ (t.map (·.id)).Nodup := by simpa using hnd
    rcases List.mem_cons.mp hp with rfl | hpt
    · rw [List.find?_cons_of_pos _ (by simp [hid, hd])]
    · have haid : a.id ≠ x := by
        intro hax
        exact hnd'.1 p hpt (by rw [hid, hax])
      rw [List.find?_cons_of_neg _ (by simp [haid])]
      exact ih hnd'.2 hpt hid hd

/-- With distinct primary keys, `getProductByID` finds exactly the live
row carrying that id. -/
theorem getProductByID_of_mem {db : DB} {p : Product} {x : Int}
    (hpids : (db.products.map (·.id)).Nodup)
    (hp : p ∈ db.products) (hid : p.id = x) (hd : p.deleted = false) :
    getProductByID db x = some p :=
  find?_product_of_mem db.products hpids hp hid hd

/-- List form of the lock-read/point-read agreement. -/
theorem find?_filter_locked {ids : List Int} {x : Int} {p : Product} (hx : x ∈ ids) :
    ∀ l : List Product, l.find? (fun q => q.id == x && !q.deleted) = some p →
      (l.filter (fun q => !q.deleted && ids.contains q.id)).find? (fun q => q.id == x) = some p := by
  intro l
  induction l with
  | nil => intro h; simp at h
  | cons a t ih =>
    intro h
    by_cases hpos : (a.id == x && !a.deleted) = true
    · rw [@List.find?_cons_of_pos _ (fun q => q.id == x && !q.deleted) a t hpos] at h
      obtain rfl : a = p := by simpa using h
      have hid : a.id = x := by simpa using (Bool.and_eq_true .. |>.mp hpos).1
      have hdel : a.deleted = false := by simpa using (Bool.and_eq_true .. |>.mp hpos).2
      rw [List.filter_cons_of_pos (by simp [hdel, List.elem_iff, hid]; exact hx),
        List.find?_cons_of_pos _ (by simp [hid])]
    · rw [@List.find?_cons_of_neg _ (fun q => q.id == x && !q.deleted) a t (by simpa using hpos)] at h
      by_cases hkeep : (!a.deleted && ids.contains a.id) = true
      · have hdel : a.deleted = false := by
          have := (Bool.and_eq_true .. |>.mp hkeep).1
          simpa using this
        have hne : a.id ≠ x := by
          intro hax
          exact hpos (by simp [hax, hdel])
        rw [@List.filter_cons_of_pos _ (fun q => !q.deleted && ids.contains q.id) a t hkeep,
          List.find?_cons_of_neg _ (by simp [hne])]
        exact ih h
      · rw [@List.filter_cons_of_neg _ (fun q => !q.deleted && ids.contains q.id) a t
          (by simpa using hkeep)]
        exact ih h

/-- The locked batch read agrees with the point read: looking an id up in
the `FOR UPDATE` result finds the same live row. -/
theorem lockedFind_eq_getProductByID {db : DB} {ids : List Int} {x : Int} {p : Product}
    (hx : x ∈ ids) (h : getProductByID db x = some p) :
    (getProductsByIDsForUpdate db ids).find? (fun q => q.id == x) = some p :=
  find?_filter_locked hx db.products h

/-- Every row of the locked batch read is a live product row with an id
from the request. -/
theorem mem_locked {db : DB} {ids : List Int} {p : Product}
    (h : p ∈ getProductsByIDsForUpdate db ids) :
    p ∈ db.products ∧ p.deleted = false ∧ p.id ∈ ids := by
  unfold getProductsByIDsForUpdate at h
  rcases List.mem_filter.mp h with ⟨hm, h2⟩
  rcases Bool.and_eq_true .. |>.mp h2 with ⟨hd, hc⟩
  exact ⟨hm, by simpa using hd, List.elem_iff.mp hc⟩

/-- With distinct primary keys, the live rows carrying a fixed id number
one or zero according to whether the point read succeeds. -/
theorem length_filter_one_id {x : Int} :
    ∀ l : List Product, (l.map (·.id)).Nodup →
      (l.filter (fun p => !p.deleted && p.id == x)).length =
        (if (l.find? (fun q => q.id == x && !q.deleted)).isSome then 1 else 0) := by
  intro l
  induction l with
  | nil => intro _; rfl
  | cons a t ih =>
    intro hnd
    have hnd' : (∀ y ∈ t, ¬ y.id = a.id) ∧ (t.map (·.id)).Nodup := by simpa using hnd
    by_cases hax : a.id = x
    · have ht0 : t.filter (fun p => !p.deleted && p.id == x) = [] :=
        filter_none (fun q hq => by
          have : q.id ≠ x := fun hc => hnd'.1 q hq (by rw [hc, hax])
          simp [this])
      have ht1 : t.find? (fun q => q.id == x && !q.deleted) = none :=
        List.find?_eq_none.mpr (fun q hq => by
          have : q.id ≠ x := fun hc => hnd'.1 q hq (by rw [hc, hax])
          simp [this])
      by_cases hda : a.deleted = true
      · rw [List.filter_cons_of_neg (by simp [hda]),
          List.find?_cons_of_neg _ (by simp [hda]), ht0, ht1]
        rfl
      · have hda' : a.deleted = false := by simpa using hda
        rw [List.filter_cons_of_pos (by simp [hda', hax]),
          List.find?_cons_of_pos _ (by simp [hax, hda']), ht0]
        simp
    · rw [List.filter_cons_of_neg (by simp [hax]),
        List.find?_cons_of_neg _ (by simp [hax])]
      exact ih hnd'.2

/-- The length of a filter by a disjoint disjunction splits as a sum. -/
theorem length_filter_or {α : Type} (p q : α → Bool) :
    ∀ l : List α, (∀ a ∈ l, ¬(p a = true ∧ q a = true)) →
      (l.filter (fun a => p a || q a)).length = (l.filter p).length + (l.filter q).length := by
  intro l
  induction l with
  | nil => intro _; rfl
  | cons a t ih =>
    intro hdisj
    have ht := ih (fun y hy => hdisj y (by simp [hy]))
    by_cases hp : p a = true
    · have hq : q a = false := by
        rcases Bool.eq_false_or_eq_true (q a) with h | h
        · exact absurd ⟨hp, h⟩ (hdisj a (by simp))
        · exact h
      rw [List.filter_cons_of_pos (by simp [hp]), List.filter_cons_of_pos hp,
        List.filter_cons_of_neg (by simp [hq])]
      simp only [List.length_cons, ht]
      omega
    · have hp' : p a = false := by simpa using hp
      by_cases hq : q a = true
      · rw [List.filter_cons_of_pos (by simp [hq]), List.filter_cons_of_neg (by simp [hp']),
          List.filter_cons_of_pos hq]
        simp only [List.length_cons, ht]
        omega
      · have hq' : q a = false := by simpa using hq
        rw [List.filter_cons_of_neg (by simp [hp', hq']), List.filter_cons_of_neg (by simp [hp']),
          List.filter_cons_of_neg (by simp [hq'])]
        exact ht

/-- The size of the locked batch read is the number of requested ids
whose point read succeeds. -/
theorem locked_length (db : DB) :
    ∀ ids : List Int, ids.Nodup → (db.products.map (·.id)).Nodup →
      (getProductsByIDsForUpdate db ids).length =
        (ids.filter (fun i => (getProductByID db i).isSome)).length := by
  intro ids
  induction ids with
  | nil =>
    intro _ _
    have : getProductsByIDsForUpdate db [] = [] :=
      filter_none (fun p _ => by simp)
    rw [this]; rfl
  | cons i rest ih =>
    intro hids hpids
    have hids' : i ∉ rest ∧ rest.Nodup := List.nodup_cons.mp hids
    have hsplit : getProductsByIDsForUpdate db (i :: rest) =
        db.products.filter (fun p =>
          (!p.deleted && p.id == i) || (!p.deleted && rest.contains p.id)) := by
      unfold getProductsByIDsForUpdate
      apply List.filter_congr
      intro p _
      cases p.deleted <;> simp [List.contains_cons] <;> tauto
    have hdisj : ∀ p ∈ db.products,
        ¬((!p.deleted && p.id == i) = true ∧ (!p.deleted && rest.contains p.id) = true) := by
      intro p _ ⟨h1, h2⟩
      have e1 : p.id = i := by simpa using (Bool.and_eq_true .. |>.mp h1).2
      have e2 : p.id ∈ rest := List.elem_iff.mp (Bool.and_eq_true .. |>.mp h2).2
      exact hids'.1 (e1 ▸ e2)
    rw [hsplit, length_filter_or _ _ _ hdisj, length_filter_one_id db.products hpids]
    have hgp : (List.find? (fun q => q.id == i && !q.deleted) db.products) = getProductByID db i :=
      rfl
    rw [hgp]
    have hr := ih hids'.2 hpids
    unfold getProductsByIDsForUpdate at hr
    rw [hr]
    by_cases hi : (getProductByID db i).isSome
    · rw [List.filter_cons_of_pos (by simpa using hi)]
      simp only [hi, if_true, List.length_cons]
      omega
    · rw [List.filter_cons_of_neg (by simpa using hi)]
      simp only [Bool.not_eq_true] at hi
      simp [hi]

/-- When every requested id resolves, the lock read returns exactly one
row per id. -/
theorem locked_length_eq {db : DB} {ids : List Int} (hids : ids.Nodup)
    (hpids : (db.products.map (·.id)).Nodup)
    (hall : ∀ x ∈ ids, (getProductByID db x).isSome) :
    (getProductsByIDsForUpdate db ids).length = ids.length := by
  rw [locked_length db ids hids hpids, List.filter_eq_self.mpr (fun x hx => by simpa using hall x hx)]

/-- When some requested id does not resolve, the lock read comes back
short. -/
theorem locked_length_lt {db : DB} {ids : List Int} {x : Int} (hids : ids.Nodup)
    (hpids : (db.products.map (·.id)).Nodup)
    (hx : x ∈ ids) (h : getProductByID db x = none) :
    (getProductsByIDsForUpdate db ids).length < ids.length := by
  rw [locked_length db ids hids hpids]
  apply List.length_filter_lt_length_iff_exists.mpr
  exact ⟨x, hx, by simp [h]⟩

/-- Point reads after a stock write: the written id reads back with the
new stock, all others are untouched. -/
theorem getProductByID_update (db : DB) (i v x : Int) :
    getProductByID (updateProductStock db i v) x =
      (getProductByID db x).map (fun p => if p.id == i then { p with stock := v } else p) := by
  unfold getProductByID updateProductStock
  rw [find?_map_pred _ _ (fun a => by
    by_cases h : (a.id == i && !a.deleted) = true
    · rw [if_pos h]
    · rw [if_neg h])]
  cases hfind : db.products.find? (fun q => q.id == x && !q.deleted) with
  | none => rfl
  | some q =>
    have hq := List.find?_some hfind
    have hdel : q.deleted = false := by simpa using (Bool.and_eq_true .. |>.mp hq).2
    simp [hdel]

/-- A stock write does not change the id column. -/
theorem update_products_ids (db : DB) (i v : Int) :
    (updateProductStock db i v).products.map (·.id) = db.products.map (·.id) := by
  unfold updateProductStock
  rw [List.map_map]
  exact List.map_congr_left (fun p _ => by
    by_cases h : (p.id == i && !p.deleted) = true
    · rw [Function.comp_apply, if_pos h]
    · rw [Function.comp_apply, if_neg h])

/-- Clearing a cart leaves it with no live items. -/
theorem listCartItems_clear_self (db : DB) (c : Int) :
    listCartItems (softDeleteCartItemsByCartID db c) c = [] := by
  unfold listCartItems softDeleteCartItemsByCartID
  rw [List.map_filter]
  have : (db.cartItems.filter
      ((fun it => it.cartID == c && !it.deleted) ∘
        (fun it => if it.cartID == c && !it.deleted then { it with deleted := true } else it))) = [] := by
    apply filter_none
    intro a _
    by_cases h : (a.cartID == c && !a.deleted) = true
    · rw [Function.comp_apply, if_pos h]
      simp
    · rw [Function.comp_apply, if_neg h]
      simpa using h
  rw [this]; rfl

/-- Clearing a cart leaves every other cart's live items unchanged. -/
theorem listCartItems_clear_other (db : DB) {c c' : Int} (h : c' ≠ c) :
    listCartItems (softDeleteCartItemsByCartID db c) c' = listCartItems db c' := by
  unfold listCartItems softDeleteCartItemsByCartID
  rw [List.map_filter]
  have hpred : (db.cartItems.filter
      ((fun it => it.cartID == c' && !it.deleted) ∘
        (fun it => if it.cartID == c && !it.deleted then { it with deleted := true } else it))) =
      db.cartItems.filter (fun it => it.cartID == c' && !it.deleted) := by
    apply List.filter_congr
    intro a _
    by_cases hc : (a.cartID == c && !a.deleted) = true
    · have h1 : a.cartID = c := by simpa using (Bool.and_eq_true .. |>.mp hc).1
      have h2 : a.cartID ≠ c' := by rw [h1]; exact fun hcc => h hcc.symm
      rw [Function.comp_apply, if_pos hc]
      simp [h2]
    · rw [Function.comp_apply, if_neg hc]
  rw [hpred]
  apply map_id_of_fix
  intro a ha
  have := (List.mem_filter.mp ha).2
  have hac : a.cartID = c' := by simpa using (Bool.and_eq_true .. |>.mp this).1
  simp [hac, h]

/-- The validation loop succeeds when every item resolves against the
locked rows with enough stock. -/
theorem validateAndTotal_ok (products : List Product) :
    ∀ (items : List CartItem) (acc : Int),
      (∀ it ∈ items, ∃ p, products.find? (fun q => q.id == it.productID) = some p ∧
        ¬ p.stock < it.quantity) →
      ∃ t, validateAndTotal products items acc = .ok t := by
  intro items
  induction items with
  | nil => intro acc _; exact ⟨acc, rfl⟩
  | cons item rest ih =>
    intro acc hall
    obtain ⟨p, hp, hs⟩ := hall item (by simp)
    have := ih (acc + p.price * item.quantity) (fun it hit => hall it (by simp [hit]))
    obtain ⟨t, ht⟩ := this
    refine ⟨t, ?_⟩
    unfold validateAndTotal
    rw [hp]
    show (if p.stock < item.quantity then Except.error Err.insufficientStock
      else validateAndTotal products rest (acc + p.price * item.quantity)) = Except.ok t
    rw [if_neg hs]
    exact ht

/-- The validation loop fails `InsufficientStock` when every item
resolves but some item's quantity exceeds the locked stock. -/
theorem validateAndTotal_insufficient (products : List Product) :
    ∀ (items : List CartItem) (acc : Int),
      (∀ it ∈ items, (products.find? (fun q => q.id == it.productID)).isSome) →
      (∃ it ∈ items, ∀ p, products.find? (fun q => q.id == it.productID) = some p →
        p.stock < it.quantity) →
      validateAndTotal products items acc = .error .insufficientStock := by
  intro items
  induction items with
  | nil => intro acc _ hex; simp at hex
  | cons item rest ih =>
    intro acc hall hex
    obtain ⟨p, hp⟩ := Option.isSome_iff_exists.mp (hall item (by simp))
    unfold validateAndTotal
    rw [hp]
    show (if p.stock < item.quantity then Except.error Err.insufficientStock
      else validateAndTotal products rest (acc + p.price * item.quantity)) =
        Except.error Err.insufficientStock
    by_cases hshort : p.stock < item.quantity
    · rw [if_pos hshort]
    · rw [if_neg hshort]
      apply ih _ (fun it hit => hall it (by simp [hit]))
      obtain ⟨it, hit, hstk⟩ := hex
      rcases List.mem_cons.mp hit with rfl | hrest
      · exact absurd (hstk p hp) hshort
      · exact ⟨it, hrest, hstk⟩

/-- The insertion/decrement loop only writes `order_items` rows and
product stocks: every other table, the id column of `products`, and the
order/cart counters are untouched. -/
theorem insertItems_frame (fs : FailSpec) (products : List Product) (orderID : Int) :
    ∀ (items : List CartItem) (i : Nat) (db db' : DB),
      insertItemsAndDecrement fs products orderID items i db = .ok db' →
      db'.carts = db.carts ∧ db'.cartItems = db.cartItems ∧ db'.orders = db.orders ∧
      db'.idemKeys = db.idemKeys ∧ db'.nextOrderID = db.nextOrderID ∧
      db'.nextCartID = db.nextCartID ∧ db'.nextCartItemID = db.nextCartItemID ∧
      db'.products.map (·.id) = db.products.map (·.id) := by
  intro items
  induction items with
  | nil =>
    intro i db db' h
    obtain rfl : db = db' := by simpa [insertItemsAndDecrement] using h
    exact ⟨rfl, rfl, rfl, rfl, rfl, rfl, rfl, rfl⟩
  | cons item rest ih =>
    intro i db db' h
    unfold insertItemsAndDecrement at h
    by_cases h1 : fs.createOrderItemFail i
    · rw [if_pos h1] at h; exact absurd h (by simp)
    · rw [if_neg h1] at h
      by_cases h2 : fs.updateStockFail i
      · rw [if_pos h2] at h; exact absurd h (by simp)
      · rw [if_neg h2] at h
        obtain ⟨hc, hci, ho, hik, hno, hncc, hnci, hpid⟩ := ih _ _ _ h
        exact ⟨hc, hci, ho, hik, hno, hncc, hnci,
          hpid.trans (update_products_ids (createOrderItemRow db orderID item.productID
            item.quantity _) _ _)⟩

/-- The insertion/decrement loop, run with no injected failures over
items whose product ids are distinct and resolve in the locked snapshot,
succeeds and writes each product's stock as locked stock minus ordered
quantity, touching no other product. -/
theorem insertItems_spec (fs : FailSpec) (products : List Product) (orderID : Int)
    (hf1 : ∀ i, fs.createOrderItemFail i = false) (hf2 : ∀ i, fs.updateStockFail i = false) :
    ∀ (items : List CartItem) (i : Nat) (db : DB),
      (items.map (·.productID)).Nodup →
      (∀ it ∈ items, ∀ p, products.find? (fun q => q.id == it.productID) = some p →
        getProductByID db it.productID = some p) →
      (∀ it ∈ items, (products.find? (fun q => q.id == it.productID)).isSome) →
      ∃ db', insertItemsAndDecrement fs products orderID items i db = .ok db' ∧
        (∀ it ∈ items, ∀ p, products.find? (fun q => q.id == it.productID) = some p →
          getProductByID db' it.productID = some { p with stock := p.stock - it.quantity }) ∧
        (∀ x, x ∉ items.map (·.productID) → getProductByID db' x = getProductByID db x) := by
  intro items
  induction items with
  | nil =>
    intro i db _ _ _
    exact ⟨db, rfl, by simp, fun x _ => rfl⟩
  | cons item rest ih =>
    intro i db hnd hagree hsome
    obtain ⟨p, hp⟩ := Option.isSome_iff_exists.mp (hsome item (by simp))
    have hpid : p.id = item.productID := by simpa using List.find?_some hp
    have hcur : getProductByID db item.productID = some p := hagree item (by simp) p hp
    have hnd' : (∀ y ∈ rest, ¬ y.productID = item.productID) ∧ (rest.map (·.productID)).Nodup := by
      simpa using hnd
    have hnotin : item.productID ∉ rest.map (·.productID) := by
      intro hc
      obtain ⟨y, hy, hyeq⟩ := List.mem_map.mp hc
      exact hnd'.1 y hy hyeq
    set dbm := updateProductStock
      (createOrderItemRow db orderID item.productID item.quantity p.price)
      p.id (p.stock - item.quantity) with hdbm
    have hprod_corow : ∀ x, getProductByID
        (createOrderItemRow db orderID item.productID item.quantity p.price) x =
        getProductByID db x := fun _ => rfl
    have hmid : ∀ x, getProductByID dbm x =
        (getProductByID db x).map (fun r => if r.id == p.id then { r with stock := p.stock - item.quantity } else r) := by
      intro x
      rw [hdbm, getProductByID_update, hprod_corow]
    have hmid_other : ∀ x, x ≠ item.productID → getProductByID dbm x = getProductByID db x := by
      intro x hx
      rw [hmid x]
      cases hr : getProductByID db x with
      | none => rfl
      | some r =>
        have hr' : db.products.find? (fun p => p.id == x && !p.deleted) = some r := hr
        have hq := List.find?_some hr'
        have hrid : r.id = x := by
          simpa using (Bool.and_eq_true .. |>.mp hq).1
        have hfalse : (r.id == p.id) = false := by
          simp only [hrid, hpid, beq_eq_false_iff_ne, ne_eq]
          exact fun hc => hx hc
        show some (if (r.id == p.id) = true then
          { r with stock := p.stock - item.quantity } else r) = some r
        rw [if_neg (by simp [hfalse])]
    have hagree' : ∀ it ∈ rest, ∀ q, products.find? (fun r => r.id == it.productID) = some q →
        getProductByID dbm it.productID = some q := by
      intro it hit q hq
      have hneq : it.productID ≠ item.productID := fun hc => hnd'.1 it hit hc
      rw [hmid_other it.productID hneq]
      exact hagree it (by simp [hit]) q hq
    obtain ⟨db', hrun, hstocks, hother⟩ := ih (i + 1) dbm hnd'.2 hagree'
      (fun it hit => hsome it (by simp [hit]))
    refine ⟨db', ?_, ?_, ?_⟩
    · unfold insertItemsAndDecrement
      rw [hp]
      simp only [Option.getD_some, hf1 i, hf2 i, Bool.false_eq_true, if_false]
      exact hrun
    · intro it hit q hq
      rcases List.mem_cons.mp hit with rfl | hrest
      · obtain rfl : p = q := by rw [hp] at hq; exact Option.some.inj hq
        have h1 : getProductByID dbm it.productID = some { p with stock := p.stock - it.quantity } := by
          rw [hmid it.productID, hcur]
          simp [hpid]
        rw [hother it.productID hnotin, h1]
      · exact hstocks it hrest q hq
    · intro x hx
      have hx1 : x ≠ item.productID := by
        intro hc
        exact hx (by simp [hc])
      have hx2 : x ∉ rest.map (·.productID) := by
        intro hc
        exact hx (by simp [hc])
      rw [hother x hx2, hmid_other x hx1]

/-- Building a successful transaction body from its branch conditions. -/
theorem orderTxBody_ok_build (fs : FailSpec) (u cartID : Int) (items : List CartItem) (db : DB)
    (total : Int) (dbi : DB)
    (h0 : fs.lockProductsFail = false) (h2 : fs.createOrderFail = false)
    (h3 : fs.clearCartFail = false)
    (hlen : ((getProductsByIDsForUpdate db (items.map (·.productID))).length
      != (items.map (·.productID)).length) = false)
    (hv : validateAndTotal (getProductsByIDsForUpdate db (items.map (·.productID))) items 0 =
      .ok total)
    (hins : insertItemsAndDecrement fs (getProductsByIDsForUpdate db (items.map (·.productID)))
      db.nextOrderID items 0 (createOrder db u total).2 = .ok dbi) :
    orderTxBody fs u cartID items db =
      .ok (⟨db.nextOrderID, u, .pending, total, false⟩,
        softDeleteCartItemsByCartID dbi cartID) := by
  unfold orderTxBody
  simp only [createOrder] at hins
  simp only [h0, h2, h3, hlen, hv, createOrder, Bool.false_eq_true, if_false, hins]

/-- Inversion of a successful transaction body into its branch
conditions. -/
theorem orderTxBody_ok_inv (fs : FailSpec) (u cartID : Int) (items : List CartItem) (db : DB)
    (o : Order) (db' : DB) (h : orderTxBody fs u cartID items db = .ok (o, db')) :
    ∃ total dbi,
      o = ⟨db.nextOrderID, u, .pending, total, false⟩ ∧
      ((getProductsByIDsForUpdate db (items.map (·.productID))).length
        != (items.map (·.productID)).length) = false ∧
      validateAndTotal (getProductsByIDsForUpdate db (items.map (·.productID))) items 0 =
        .ok total ∧
      insertItemsAndDecrement fs (getProductsByIDsForUpdate db (items.map (·.productID)))
        db.nextOrderID items 0 (createOrder db u total).2 = .ok dbi ∧
      db' = softDeleteCartItemsByCartID dbi cartID := by
  unfold orderTxBody at h
  by_cases h0 : fs.lockProductsFail
  · rw [if_pos h0] at h; exact absurd h (by simp)
  · rw [if_neg h0] at h
    by_cases h1 : ((getProductsByIDsForUpdate db (items.map (·.productID))).length
        != (items.map (·.productID)).length) = true
    · rw [if_pos h1] at h; exact absurd h (by simp)
    · rw [if_neg h1] at h
      cases hv : validateAndTotal (getProductsByIDsForUpdate db (items.map (·.productID)))
          items 0 with
      | error e =>
        rw [hv] at h
        exact absurd h (by simp)
      | ok total =>
        rw [hv] at h
        by_cases h2 : fs.createOrderFail
        · simp only [h2, if_true] at h
          exact absurd h (by simp)
        · simp only [Bool.not_eq_true] at h2
          simp only [h2, Bool.false_eq_true, if_false, createOrder] at h
          cases hins : insertItemsAndDecrement fs
              (getProductsByIDsForUpdate db (items.map (·.productID))) db.nextOrderID items 0
              (createOrder db u total).2 with
          | error e =>
            simp only [createOrder] at hins
            rw [hins] at h
            exact absurd h (by simp)
          | ok dbi =>
            simp only [createOrder] at hins
            rw [hins] at h
            by_cases h3 : fs.clearCartFail
            · simp only [h3, if_true] at h
              exact absurd h (by simp)
            · simp only [Bool.not_eq_true] at h3
              simp only [h3, Bool.false_eq_true, if_false] at h
              obtain ⟨ho, hdb⟩ := Prod.mk.injEq .. ▸ Except.ok.inj h
              exact ⟨total, dbi, ho.symm, by simpa using h1, rfl, hins, hdb.symm⟩

/-- Any failing run of `CreateOrderFromCart` leaves the state exactly as
it was: the pre-transaction part only reads, and `ExecTx` rolls the body
back. -/
theorem createOrderFromCart_rollback (fs : FailSpec) (u : Int) (db : DB) (e : Err)
    (h : (CreateOrderFromCart fs u db).1 = .error e) :
    (CreateOrderFromCart fs u db).2 = db := by
  unfold CreateOrderFromCart at h ⊢
  cases hc : getCartByUserID db u with
  | none => rfl
  | some cart =>
    rw [hc] at h
    by_cases he : (listCartItems db cart.id).isEmpty
    · simp [he]
    · cases ht : orderTxBody fs u cart.id (listCartItems db cart.id) db with
      | error e2 => simp [he, ht]
      | ok pr =>
        cases pr with
        | mk o db2 => simp [he, ht] at h

/-- Inversion of a successful `CreateOrderFromCart` run: the cart
existed, had live items, and the transaction body committed. -/
theorem createOrderFromCart_ok_inv (fs : FailSpec) (u : Int) (db : DB) (o : Order) (db' : DB)
    (h : CreateOrderFromCart fs u db = (.ok o, db')) :
    ∃ cart, getCartByUserID db u = some cart ∧ (listCartItems db cart.id).isEmpty = false ∧
      orderTxBody fs u cart.id (listCartItems db cart.id) db = .ok (o, db') := by
  unfold CreateOrderFromCart at h
  cases hc : getCartByUserID db u with
  | none =>
    rw [hc] at h
    exact absurd h (by simp)
  | some cart =>
    rw [hc] at h
    by_cases he : (listCartItems db cart.id).isEmpty
    · simp [he] at h
    · cases ht : orderTxBody fs u cart.id (listCartItems db cart.id) db with
      | error e =>
        simp [he, ht] at h
      | ok pr =>
        cases pr with
        | mk o2 db2 =>
          simp only [ht, he, Bool.false_eq_true, if_false, Prod.mk.injEq,
            Except.ok.injEq] at h
          obtain ⟨h1, h2⟩ := h
          exact ⟨cart, rfl, by simpa using he, by rw [ht, h1, h2]⟩

/-- Building a successful `CreateOrderFromCart` run from a cart with
live items and a committing transaction body. -/
theorem createOrderFromCart_ok_build (fs : FailSpec) (u : Int) (db : DB) (cart : Cart)
    (o : Order) (db' : DB)
    (hc : getCartByUserID db u = some cart)
    (he : (listCartItems db cart.id).isEmpty = false)
    (ht : orderTxBody fs u cart.id (listCartItems db cart.id) db = .ok (o, db')) :
    CreateOrderFromCart fs u db = (.ok o, db') := by
  unfold CreateOrderFromCart
  rw [hc]
  simp only [he, Bool.false_eq_true, if_false, ht]

/-- `listCartItems` reads only the `cart_items` table. -/
theorem listCartItems_congr {db1 db2 : DB} (h : db1.cartItems = db2.cartItems) (c : Int) :
    listCartItems db1 c = listCartItems db2 c := by
  unfold listCartItems
  rw [h]

/-- `getCartByUserID` reads only the `carts` table. -/
theorem getCartByUserID_congr {db1 db2 : DB} (h : db1.carts = db2.carts) (u : Int) :
    getCartByUserID db1 u = getCartByUserID db2 u := by
  unfold getCartByUserID
  rw [h]

/-- Full characterization of a successful `CreateOrderFromCart` run under
the schema invariants (distinct product ids; distinct product ids among
the cart's live items): the order is minted with the next id, every
ordered product's stock is decremented by the ordered quantity, no other
product changes, the cart row and the idempotency registry are
untouched, and the cart's items are soft-deleted. -/
theorem createOrderFromCart_ok_spec (fs : FailSpec) (u : Int) (db : DB) (cart : Cart)
    (hf0 : fs.lockProductsFail = false) (hfc : fs.createOrderFail = false)
    (hfcl : fs.clearCartFail = false)
    (hf1 : ∀ i, fs.createOrderItemFail i = false) (hf2 : ∀ i, fs.updateStockFail i = false)
    (hcart : getCartByUserID db u = some cart)
    (hne : (listCartItems db cart.id).isEmpty = false)
    (hnodup : ((listCartItems db cart.id).map (·.productID)).Nodup)
    (hpids : (db.products.map (·.id)).Nodup)
    (hall : ∀ it ∈ listCartItems db cart.id, ∃ p, getProductByID db it.productID = some p ∧
      it.quantity ≤ p.stock) :
    ∃ total db',
      CreateOrderFromCart fs u db = (.ok ⟨db.nextOrderID, u, .pending, total, false⟩, db') ∧
      (∀ it ∈ listCartItems db cart.id, ∀ p, getProductByID db it.productID = some p →
        getProductByID db' it.productID = some { p with stock := p.stock - it.quantity }) ∧
      (∀ x, x ∉ (listCartItems db cart.id).map (·.productID) →
        getProductByID db' x = getProductByID db x) ∧
      db'.carts = db.carts ∧ db'.idemKeys = db.idemKeys ∧
      db'.orders = db.orders ++ [⟨db.nextOrderID, u, .pending, total, false⟩] ∧
      db'.nextOrderID = db.nextOrderID + 1 ∧
      db'.products.map (·.id) = db.products.map (·.id) ∧
      listCartItems db' cart.id = [] ∧
      (∀ c', c' ≠ cart.id → listCartItems db' c' = listCartItems db c') ∧
      db'.cartItems = db.cartItems.map (fun it =>
        if it.cartID == cart.id && !it.deleted then { it with deleted := true } else it) := by
  have hallSome : ∀ x ∈ (listCartItems db cart.id).map (·.productID),
      (getProductByID db x).isSome := by
    intro x hx
    obtain ⟨it, hit, rfl⟩ := List.mem_map.mp hx
    obtain ⟨p, hp, _⟩ := hall it hit
    simp [hp]
  have hlen : ((getProductsByIDsForUpdate db
      ((listCartItems db cart.id).map (·.productID))).length !=
      ((listCartItems db cart.id).map (·.productID)).length) = false := by
    have := locked_length_eq hnodup hpids hallSome
    simp [this]
  have hagree0 : ∀ it ∈ listCartItems db cart.id, ∀ p,
      getProductByID db it.productID = some p →
      (getProductsByIDsForUpdate db ((listCartItems db cart.id).map (·.productID))).find?
        (fun q => q.id == it.productID) = some p := by
    intro it hit p hp
    exact lockedFind_eq_getProductByID (List.mem_map_of_mem _ hit) hp
  obtain ⟨total, hv⟩ := validateAndTotal_ok
    (getProductsByIDsForUpdate db ((listCartItems db cart.id).map (·.productID)))
    (listCartItems db cart.id) 0
    (fun it hit => by
      obtain ⟨p, hp, hq⟩ := hall it hit
      exact ⟨p, hagree0 it hit p hp, by omega⟩)
  have hagree1 : ∀ it ∈ listCartItems db cart.id, ∀ p,
      (getProductsByIDsForUpdate db ((listCartItems db cart.id).map (·.productID))).find?
        (fun q => q.id == it.productID) = some p →
      getProductByID (createOrder db u total).2 it.productID = some p := by
    intro it hit p hp
    obtain ⟨p0, hp0, _⟩ := hall it hit
    have h0 := hagree0 it hit p0 hp0
    rw [h0] at hp
    obtain rfl := Option.some.inj hp
    exact hp0
  have hsome1 : ∀ it ∈ listCartItems db cart.id,
      ((getProductsByIDsForUpdate db ((listCartItems db cart.id).map (·.productID))).find?
        (fun q => q.id == it.productID)).isSome := by
    intro it hit
    obtain ⟨p0, hp0, _⟩ := hall it hit
    simp [hagree0 it hit p0 hp0]
  obtain ⟨dbi, hins, hstocks, hothers⟩ := insertItems_spec fs
    (getProductsByIDsForUpdate db ((listCartItems db cart.id).map (·.productID)))
    db.nextOrderID hf1 hf2 (listCartItems db cart.id) 0 (createOrder db u total).2
    hnodup hagree1 hsome1
  have htx := orderTxBody_ok_build fs u cart.id (listCartItems db cart.id) db total dbi
    hf0 hfc hfcl hlen hv hins
  have hrun := createOrderFromCart_ok_build fs u db cart _ _ hcart hne htx
  obtain ⟨hfc1, hfci, hfo, hfik, hfno, hfncc, hfnci, hfpid⟩ :=
    insertItems_frame fs
      (getProductsByIDsForUpdate db ((listCartItems db cart.id).map (·.productID)))
      db.nextOrderID (listCartItems db cart.id) 0 (createOrder db u total).2 dbi hins
  refine ⟨total, softDeleteCartItemsByCartID dbi cart.id, hrun, ?_, ?_, hfc1, hfik, hfo,
    hfno, hfpid, listCartItems_clear_self dbi cart.id, ?_, ?_⟩
  · intro it hit p hp
    exact hstocks it hit p (hagree0 it hit p hp)
  · intro x hx
    exact hothers x hx
  · intro c' hc'
    exact (listCartItems_clear_other dbi hc').trans (listCartItems_congr hfci c')
  · show dbi.cartItems.map _ = _
    rw [hfci]
    rfl

/-- When a cart item's product has no live row, the lock read comes back
short and the transaction body fails `ProductNotFound` before any stock
check. -/
theorem orderTxBody_missing (fs : FailSpec) (u cartID : Int) (items : List CartItem) (db : DB)
    (hf0 : fs.lockProductsFail = false)
    (hnodup : (items.map (·.productID)).Nodup)
    (hpids : (db.products.map (·.id)).Nodup)
    (hmiss : ∃ it ∈ items, getProductByID db it.productID = none) :
    orderTxBody fs u cartID items db = .error .productNotFound := by
  obtain ⟨it, hit, hnone⟩ := hmiss
  have hlt := locked_length_lt hnodup hpids (List.mem_map_of_mem (·.productID) hit) hnone
  have hne' : ((getProductsByIDsForUpdate db (items.map (·.productID))).length !=
      (items.map (·.productID)).length) = true := by
    simp only [bne_iff_ne, ne_eq]
    omega
  unfold orderTxBody
  rw [if_neg (by simp [hf0]), if_pos hne']

/-- When every cart item's product is live but some item's quantity
exceeds the locked stock, the transaction body fails
`InsufficientStock`. -/
theorem orderTxBody_insufficient (fs : FailSpec) (u cartID : Int) (items : List CartItem)
    (db : DB)
    (hf0 : fs.lockProductsFail = false)
    (hnodup : (items.map (·.productID)).Nodup)
    (hpids : (db.products.map (·.id)).Nodup)
    (hall : ∀ it ∈ items, (getProductByID db it.productID).isSome)
    (hshort : ∃ it ∈ items, ∀ p, getProductByID db it.productID = some p →
      p.stock < it.quantity) :
    orderTxBody fs u cartID items db = .error .insufficientStock := by
  have hallSome : ∀ x ∈ items.map (·.productID), (getProductByID db x).isSome := by
    intro x hx
    obtain ⟨it2, hit2, rfl⟩ := List.mem_map.mp hx
    exact hall it2 hit2
  have hlen : ((getProductsByIDsForUpdate db (items.map (·.productID))).length !=
      (items.map (·.productID)).length) = false := by
    have := locked_length_eq hnodup hpids hallSome
    simp [this]
  have hsome1 : ∀ it ∈ items,
      ((getProductsByIDsForUpdate db (items.map (·.productID))).find?
        (fun q => q.id == it.productID)).isSome := by
    intro it hit
    obtain ⟨p, hp⟩ := Option.isSome_iff_exists.mp (hall it hit)
    simp [lockedFind_eq_getProductByID (List.mem_map_of_mem (·.productID) hit) hp]
  have hv : validateAndTotal (getProductsByIDsForUpdate db (items.map (·.productID)))
      items 0 = .error .insufficientStock := by
    apply validateAndTotal_insufficient _ _ _ hsome1
    obtain ⟨it, hit, hstk⟩ := hshort
    refine ⟨it, hit, fun p hp => ?_⟩
    obtain ⟨p0, hp0⟩ := Option.isSome_iff_exists.mp (hall it hit)
    have := lockedFind_eq_getProductByID (List.mem_map_of_mem (·.productID) hit) hp0
    rw [this] at hp
    obtain rfl := Option.some.inj hp
    exact hstk _ hp0
  unfold orderTxBody
  rw [if_neg (by simp [hf0]), if_neg (by rw [hlen]; simp), hv]

/-- Lifting an erroring transaction body to a `CreateOrderFromCart` run:
the run returns the body's error and the rolled-back state. -/
theorem createOrderFromCart_err_build (fs : FailSpec) (u : Int) (db : DB) (cart : Cart)
    (e : Err)
    (hc : getCartByUserID db u = some cart)
    (he : (listCartItems db cart.id).isEmpty = false)
    (ht : orderTxBody fs u cart.id (listCartItems db cart.id) db = .error e) :
    CreateOrderFromCart fs u db = (.error e, db) := by
  unfold CreateOrderFromCart
  rw [hc]
  simp only [he, Bool.false_eq_true, if_false, ht]

/-- Frame facts of any successful `CreateOrderFromCart` run, with no
well-formedness assumptions: the new order is appended with the next
serial id, the registry, cart rows and counters are untouched, and the
cart items change only by the final soft delete. -/
theorem createOrderFromCart_ok_frame (fs : FailSpec) (u : Int) (db : DB) (o : Order) (db' : DB)
    (h : CreateOrderFromCart fs u db = (.ok o, db')) :
    ∃ cart, getCartByUserID db u = some cart ∧
      o.id = db.nextOrderID ∧ o.userID = u ∧ o.status = .pending ∧ o.deleted = false ∧
      db'.orders = db.orders ++ [o] ∧ db'.nextOrderID = db.nextOrderID + 1 ∧
      db'.idemKeys = db.idemKeys ∧ db'.carts = db.carts ∧
      db'.cartItems = db.cartItems.map (fun it =>
        if it.cartID == cart.id && !it.deleted then { it with deleted := true } else it) := by
  obtain ⟨cart, hc, he, ht⟩ := createOrderFromCart_ok_inv fs u db o db' h
  obtain ⟨total, dbi, ho, hlen, hv, hins, hdb'⟩ := orderTxBody_ok_inv fs u cart.id _ db o db' ht
  obtain ⟨hfc1, hfci, hfo, hfik, hfno, hfncc, hfnci, hfpid⟩ :=
    insertItems_frame fs _ _ _ 0 _ dbi hins
  subst hdb'
  subst ho
  refine ⟨cart, hc, rfl, rfl, rfl, rfl, ?_, ?_, ?_, ?_, ?_⟩
  · show dbi.orders = _
    rw [hfo]
    rfl
  · show dbi.nextOrderID = _
    rw [hfno]
    rfl
  · show dbi.idemKeys = _
    rw [hfik]
    rfl
  · show dbi.carts = _
    rw [hfc1]
    rfl
  · show dbi.cartItems.map _ = _
    rw [hfci]
    rfl

/-! ## Claim theorems -/

/-- C1: `CreateOrderFromCart` is atomic.  Whatever storage failure
pattern occurs (locking, the product-count check, stock validation, the
order insert, any order-item insert, any stock decrement, or clearing
the cart items — all reachable through `fs`), an erroring run leaves the
database exactly as it was: no order row, no order-item row, no stock
change and no cart-item soft delete persists. -/
theorem C1_createOrderFromCart_atomic (fs : FailSpec) (userID : Int) (db : DB) (e : Err)
    (h : (CreateOrderFromCart fs userID db).1 = .error e) :
    (CreateOrderFromCart fs userID db).2 = db :=
  createOrderFromCart_rollback fs userID db e h

/-- A cart ready for ordering: product 1 (price 500, stock 10), user 7's
cart 1 holding two units of product 1. -/
def dbW : DB :=
  ⟨[⟨1, 500, 10, false⟩], [⟨1, 7, false⟩], [⟨1, 1, 1, 2, false⟩], [], [], [], 50, 60, 2, 2⟩

/-- A run whose only storage failure is the final cart-clearing write. -/
def fsClearFail : FailSpec :=
  { noFail with clearCartFail := true }

/-- Witness for C1: a run failing at the very last write inside the
transaction (clearing the cart) leaves the state untouched. -/
theorem C1_witness :
    (CreateOrderFromCart fsClearFail 7 dbW).1 = .error (.storage 4) ∧
    (CreateOrderFromCart fsClearFail 7 dbW).2 = dbW :=
  ⟨by decide, C1_createOrderFromCart_atomic fsClearFail 7 dbW (.storage 4) (by decide)⟩

/-- C2: validation in `CreateOrderFromCart` happens under the lock and
against the locked stock values.  With the schema invariants (distinct
product ids, distinct products among the cart's live items): a missing
product fails `ProductNotFound`; a present-but-short product fails
`InsufficientStock`; on success every ordered product's stock is
decremented by exactly the ordered quantity, other products are
untouched, and every product stock that was non-negative stays
non-negative. -/
theorem C2_createOrderFromCart_validation (u : Int) (db : DB) (cart : Cart)
    (hcart : getCartByUserID db u = some cart)
    (hne : (listCartItems db cart.id).isEmpty = false)
    (hnodup : ((listCartItems db cart.id).map (·.productID)).Nodup)
    (hpids : (db.products.map (·.id)).Nodup) :
    ((∃ it ∈ listCartItems db cart.id, getProductByID db it.productID = none) →
      CreateOrderFromCart noFail u db = (.error .productNotFound, db)) ∧
    ((∀ it ∈ listCartItems db cart.id, (getProductByID db it.productID).isSome) →
      (∃ it ∈ listCartItems db cart.id, ∀ p, getProductByID db it.productID = some p →
        p.stock < it.quantity) →
      CreateOrderFromCart noFail u db = (.error .insufficientStock, db)) ∧
    ((∀ it ∈ listCartItems db cart.id, ∃ p, getProductByID db it.productID = some p ∧
        it.quantity ≤ p.stock) →
      ∃ total db', CreateOrderFromCart noFail u db =
          (.ok ⟨db.nextOrderID, u, .pending, total, false⟩, db') ∧
        (∀ it ∈ listCartItems db cart.id, ∀ p, getProductByID db it.productID = some p →
          productStock db' it.productID = some (p.stock - it.quantity)) ∧
        (∀ x, x ∉ (listCartItems db cart.id).map (·.productID) →
          getProductByID db' x = getProductByID db x) ∧
        (∀ x s, productStock db x = some s → 0 ≤ s →
          ∃ s', productStock db' x = some s' ∧ 0 ≤ s')) := by
  refine ⟨?_, ?_, ?_⟩
  · intro hmiss
    exact createOrderFromCart_err_build noFail u db cart _ hcart hne
      (orderTxBody_missing noFail u cart.id _ db rfl hnodup hpids hmiss)
  · intro hall hshort
    exact createOrderFromCart_err_build noFail u db cart _ hcart hne
      (orderTxBody_insufficient noFail u cart.id _ db rfl hnodup hpids hall hshort)
  · intro hall
    obtain ⟨total, db', hrun, hstocks, hothers, _, _, _, _, _, _, _, _⟩ :=
      createOrderFromCart_ok_spec noFail u db cart rfl rfl rfl (fun _ => rfl) (fun _ => rfl)
        hcart hne hnodup hpids hall
    refine ⟨total, db', hrun, ?_, hothers, ?_⟩
    · intro it hit p hp
      rw [productStock, hstocks it hit p hp]
      rfl
    · intro x s hs hnn
      by_cases hx : x ∈ (listCartItems db cart.id).map (·.productID)
      · obtain ⟨it, hit, rfl⟩ := List.mem_map.mp hx
        obtain ⟨p, hp, hq⟩ := hall it hit
        have hsp : s = p.stock := by
          rw [productStock, hp] at hs
          exact (by simpa using hs : p.stock = s).symm
        refine ⟨p.stock - it.quantity, ?_, by omega⟩
        rw [productStock, hstocks it hit p hp]
        rfl
      · refine ⟨s, ?_, hnn⟩
        rw [productStock, hothers x hx]
        exact hs

/-- Witness for C2: the success branch on the concrete ready cart
decrements product 1 from 10 to 8. -/
theorem C2_witness :
    ∃ total db',
      CreateOrderFromCart noFail 7 dbW = (.ok ⟨50, 7, .pending, total, false⟩, db') ∧
      productStock db' 1 = some 8 := by
  obtain ⟨total, db', hrun, hstocks, _, _⟩ :=
    (C2_createOrderFromCart_validation 7 dbW ⟨1, 7, false⟩ (by decide) (by decide) (by decide)
      (by decide)).2.2 (fun it hit => by
        have h1 : listCartItems dbW 1 = [⟨1, 1, 1, 2, false⟩] := by decide
        rw [h1] at hit
        obtain rfl : it = ⟨1, 1, 1, 2, false⟩ := by simpa using hit
        exact ⟨⟨1, 500, 10, false⟩, by decide, by norm_num⟩)
  refine ⟨total, db', hrun, ?_⟩
  have := hstocks ⟨1, 1, 1, 2, false⟩ (by decide) ⟨1, 500, 10, false⟩ (by decide)
  simpa using this

/-- C10: neither `ClearCart` nor a successful `CreateOrderFromCart`
deletes or soft-deletes the cart row itself: the `carts` table is
untouched, only the cart's items are soft-deleted, and a subsequent
`GetOrCreateCart` returns the very same cart row without creating a new
one. -/
theorem C10_cart_row_preserved (fs : FailSpec) (u : Int) (db : DB) :
    ((ClearCart u db).1 = .ok () ∧ (ClearCart u db).2.carts = db.carts ∧
      (∀ cart, getCartByUserID db u = some cart →
        GetOrCreateCart u (ClearCart u db).2 = (cart, (ClearCart u db).2))) ∧
    (∀ o db', CreateOrderFromCart fs u db = (.ok o, db') →
      db'.carts = db.carts ∧
      ∃ cart, getCartByUserID db u = some cart ∧
        GetOrCreateCart u db' = (cart, db') ∧
        db'.cartItems = db.cartItems.map (fun it =>
          if it.cartID == cart.id && !it.deleted then { it with deleted := true } else it)) := by
  constructor
  · unfold ClearCart
    cases hc : getCartByUserID db u with
    | none =>
      refine ⟨rfl, rfl, ?_⟩
      intro cart hcart
      cases hcart
    | some cart0 =>
      refine ⟨rfl, rfl, ?_⟩
      intro cart hcart
      obtain rfl := Option.some.inj hcart
      show GetOrCreateCart u (softDeleteCartItemsByCartID db cart0.id) =
        (cart0, softDeleteCartItemsByCartID db cart0.id)
      have hcc : getCartByUserID (softDeleteCartItemsByCartID db cart0.id) u = some cart0 :=
        (getCartByUserID_congr rfl u).trans hc
      unfold GetOrCreateCart
      rw [hcc]
  · intro o db' h
    obtain ⟨cart, hc, _, _, _, _, _, _, _, hcarts, hci⟩ :=
      createOrderFromCart_ok_frame fs u db o db' h
    refine ⟨hcarts, cart, hc, ?_, hci⟩
    have hcc : getCartByUserID db' u = some cart := by
      rw [getCartByUserID_congr hcarts u]
      exact hc
    unfold GetOrCreateCart
    rw [hcc]

/-- Witness for C10: after converting user 7's cart, `GetOrCreateCart`
still returns cart 1 and creates nothing. -/
theorem C10_witness :
    (ClearCart 7 dbW).2.carts = dbW.carts ∧
    GetOrCreateCart 7 (CreateOrderFromCart noFail 7 dbW).2 =
      (⟨1, 7, false⟩, (CreateOrderFromCart noFail 7 dbW).2) := by
  have h := C10_cart_row_preserved noFail 7 dbW
  refine ⟨h.1.2.1, ?_⟩
  have h1 : (CreateOrderFromCart noFail 7 dbW).1 = .ok ⟨50, 7, .pending, 1000, false⟩ := by
    decide
  obtain ⟨hcarts, cart, hc, hoc, _⟩ :=
    h.2 ⟨50, 7, .pending, 1000, false⟩ (CreateOrderFromCart noFail 7 dbW).2 (Prod.ext h1 rfl)
  have : getCartByUserID dbW 7 = some ⟨1, 7, false⟩ := by decide
  rw [this] at hc
  obtain rfl := Option.some.inj hc
  exact hoc

/-- Inserting an absent idempotency key appends exactly one registry
row. -/
theorem createIdempotencyKey_of_absent {db : DB} {u : Int} {k : String} (v : Option Int)
    (h : getIdempotencyKey db u k = none) :
    createIdempotencyKey db u k v = { db with idemKeys := db.idemKeys ++ [⟨u, k, v⟩] } := by
  unfold createIdempotencyKey
  rw [h]

/-- After recording a fresh key, looking it up finds the new row. -/
theorem getIdempotencyKey_after_record {l : List IdemKey} {u : Int} {k : String} (v : Option Int)
    (h : l.find? (fun e => e.userID == u && e.key == k) = none) :
    (l ++ [(⟨u, k, v⟩ : IdemKey)]).find? (fun e => e.userID == u && e.key == k) =
      some ⟨u, k, v⟩ := by
  rw [find?_append_left_none (fun e he => by
    have := List.find?_eq_none.mp h e he
    simpa using this)]
  rw [List.find?_cons_of_pos _ (by simp)]

/-- C4: the dispatch of `CreateOrderWithIdempotency`.  An empty key
behaves exactly as `CreateOrderFromCart`; a resolved registry entry
returns the re-fetched existing order with no state change; a pending
entry fails `DuplicateOrder` with no state change; an absent entry runs
`CreateOrderFromCart` and then records the mapping best-effort, a
recording failure being non-fatal. -/
theorem C4_idempotency_dispatch (fs : FailSpec) (u : Int) (db : DB) (k : String) :
    (CreateOrderWithIdempotency fs u "" db = CreateOrderFromCart fs u db) ∧
    (∀ e oid, k ≠ "" → getIdempotencyKey db u k = some e → e.orderID = some oid →
      CreateOrderWithIdempotency fs u k db = (GetOrderByIDService u oid false db, db)) ∧
    (∀ e, k ≠ "" → getIdempotencyKey db u k = some e → e.orderID = none →
      CreateOrderWithIdempotency fs u k db = (.error .duplicateOrder, db)) ∧
    (k ≠ "" → getIdempotencyKey db u k = none →
      ((∀ e db1, CreateOrderFromCart fs u db = (.error e, db1) →
        CreateOrderWithIdempotency fs u k db = (.error e, db1)) ∧
       (∀ o db1, CreateOrderFromCart fs u db = (.ok o, db1) →
        CreateOrderWithIdempotency fs u k db =
          (.ok o, if fs.createIdemKeyFail then db1
            else createIdempotencyKey db1 u k (some o.id))))) := by
  refine ⟨?_, ?_, ?_, ?_⟩
  · unfold CreateOrderWithIdempotency
    rw [if_neg (by simp)]
    unfold createAndRecord
    cases hr : CreateOrderFromCart fs u db with
    | mk fst snd =>
      cases fst with
      | error e => simp
      | ok o => simp
  · intro e oid hk he hoid
    unfold CreateOrderWithIdempotency
    rw [if_pos (by simpa using hk)]
    simp only [he, hoid]
  · intro e hk he hoid
    unfold CreateOrderWithIdempotency
    rw [if_pos (by simpa using hk)]
    simp only [he, hoid]
  · intro hk hnone
    constructor
    · intro e db1 hrun
      unfold CreateOrderWithIdempotency createAndRecord
      rw [if_pos (by simpa using hk)]
      simp only [hnone, hrun]
    · intro o db1 hrun
      unfold CreateOrderWithIdempotency createAndRecord
      rw [if_pos (by simpa using hk)]
      simp only [hnone, hrun]
      by_cases hf : fs.createIdemKeyFail
      · simp [hf]
      · simp [hf, bne_iff_ne, hk]

/-- A state whose registry already holds a pending entry for
`(user 7, "k")`. -/
def dbPending : DB :=
  ⟨[⟨1, 500, 10, false⟩], [⟨1, 7, false⟩], [⟨1, 1, 1, 2, false⟩], [], [],
   [⟨7, "k", none⟩], 50, 60, 2, 2⟩

/-- Witness for C4: a pending registry entry makes the call fail
`DuplicateOrder` without touching the state. -/
theorem C4_witness :
    CreateOrderWithIdempotency noFail 7 "k" dbPending = (.error .duplicateOrder, dbPending) :=
  (C4_idempotency_dispatch noFail 7 dbPending "k").2.2.1 ⟨7, "k", none⟩ (by decide)
    (by decide) rfl

/-- C5: sequential idempotence.  Starting from a state with no registry
entry for the key and serial order ids, a successful
`CreateOrderWithIdempotency` followed by a second call with the same key
returns the very same order row and leaves the state of the first call
untouched — in particular no stock is decremented a second time. -/
theorem C5_sequential_idempotence (u : Int) (k : String) (db : DB) (order : Order) (db1 : DB)
    (hk : k ≠ "")
    (hnone : getIdempotencyKey db u k = none)
    (horders : ∀ o ∈ db.orders, o.id < db.nextOrderID)
    (h1 : CreateOrderWithIdempotency noFail u k db = (.ok order, db1)) :
    CreateOrderWithIdempotency noFail u k db1 = (.ok order, db1) := by
  unfold CreateOrderWithIdempotency createAndRecord at h1
  rw [if_pos (by simpa using hk)] at h1
  simp only [hnone] at h1
  rcases hr : CreateOrderFromCart noFail u db with ⟨fst, db0⟩
  rw [hr] at h1
  cases fst with
  | error e => simp at h1
  | ok o =>
    have hcond : (k != "" && !noFail.createIdemKeyFail) = true := by
      simp [bne_iff_ne, hk, noFail]
    simp only [hcond, if_true] at h1
    have hoo : o = order := by
      have := congrArg Prod.fst h1
      simpa using this
    subst hoo
    have hdb1 : db1 = createIdempotencyKey db0 u k (some o.id) := by
      have := congrArg Prod.snd h1
      simpa using this.symm
    obtain ⟨cart, hc, hid, huid, hst, hdel, hords, hno, hik, hcarts, hci⟩ :=
      createOrderFromCart_ok_frame noFail u db o db0 hr
    have hnone0 : getIdempotencyKey db0 u k = none := by
      unfold getIdempotencyKey at hnone ⊢
      rw [hik]
      exact hnone
    have hdb1' : db1 = { db0 with idemKeys := db0.idemKeys ++ [⟨u, k, some o.id⟩] } := by
      rw [hdb1, createIdempotencyKey_of_absent _ hnone0]
    have hlook : getIdempotencyKey db1 u k = some ⟨u, k, some o.id⟩ := by
      unfold getIdempotencyKey
      rw [hdb1']
      exact getIdempotencyKey_after_record _ (by
        unfold getIdempotencyKey at hnone0
        exact hnone0)
    have horder1 : getOrderByID db1 o.id = some o := by
      unfold getOrderByID
      have hords1 : db1.orders = db.orders ++ [o] := by
        rw [hdb1']
        exact hords
      rw [hords1]
      rw [find?_append_left_none (fun o2 ho2 => by
        have hlt := horders o2 ho2
        have : o2.id ≠ o.id := by omega
        simp [this])]
      rw [List.find?_cons_of_pos _ (by simp [hdel])]
    unfold CreateOrderWithIdempotency
    rw [if_pos (by simpa using hk)]
    simp only [hlook]
    unfold GetOrderByIDService
    rw [horder1]
    simp [huid]

/-- Witness for C5: converting user 7's cart with key `k` twice returns
order 50 both times, the second call changing nothing. -/
theorem C5_witness :
    CreateOrderWithIdempotency noFail 7 "k" (CreateOrderWithIdempotency noFail 7 "k" dbW).2 =
      (.ok ⟨50, 7, .pending, 1000, false⟩, (CreateOrderWithIdempotency noFail 7 "k" dbW).2) :=
  C5_sequential_idempotence 7 "k" dbW ⟨50, 7, .pending, 1000, false⟩ _ (by decide) (by decide)
    (by decide) (Prod.ext (by decide) rfl)

/-- A stock write to one id leaves every other id's point read
unchanged. -/
theorem getProductByID_update_ne (db : DB) (i v x : Int) (hx : x ≠ i) :
    getProductByID (updateProductStock db i v) x = getProductByID db x := by
  rw [getProductByID_update]
  cases hr : getProductByID db x with
  | none => rfl
  | some r =>
    have hr' : db.products.find? (fun p => p.id == x && !p.deleted) = some r := hr
    have hq := List.find?_some hr'
    have hrid : r.id = x := by simpa using (Bool.and_eq_true .. |>.mp hq).1
    have hfalse : (r.id == i) = false := by
      simp only [hrid, beq_eq_false_iff_ne, ne_eq]
      exact hx
    show some (if (r.id == i) = true then { r with stock := v } else r) = some r
    rw [if_neg (by simp [hfalse])]

/-- A stock write to a live id makes its point read return the written
stock. -/
theorem getProductByID_update_self (db : DB) (i v : Int) {p : Product}
    (hp : getProductByID db i = some p) :
    getProductByID (updateProductStock db i v) i = some { p with stock := v } := by
  rw [getProductByID_update, hp]
  have hp' : db.products.find? (fun q => q.id == i && !q.deleted) = some p := hp
  have hq := List.find?_some hp'
  have hpid : p.id = i := by simpa using (Bool.and_eq_true .. |>.mp hq).1
  show some (if (p.id == i) = true then { p with stock := v } else p) = some ({ p with stock := v })
  rw [if_pos (by simp [hpid])]

/-- `listOrderItems` reads only the `order_items` table. -/
theorem listOrderItems_congr {db1 db2 : DB} (h : db1.orderItems = db2.orderItems) (oid : Int) :
    listOrderItems db1 oid = listOrderItems db2 oid := by
  unfold listOrderItems
  rw [h]

/-- Setting the status of a live order: the row reads back with the new
status, and only the `orders` table changes. -/
theorem updateOrderStatusPrim_spec {db : DB} {oid : Int} {o : Order} (st : OrderStatus)
    (h : getOrderByID db oid = some o) :
    (updateOrderStatusPrim db oid st).1 = some { o with status := st } ∧
    getOrderByID (updateOrderStatusPrim db oid st).2 oid = some { o with status := st } ∧
    (updateOrderStatusPrim db oid st).2.products = db.products ∧
    (updateOrderStatusPrim db oid st).2.orderItems = db.orderItems ∧
    (updateOrderStatusPrim db oid st).2.carts = db.carts ∧
    (updateOrderStatusPrim db oid st).2.cartItems = db.cartItems ∧
    (updateOrderStatusPrim db oid st).2.idemKeys = db.idemKeys := by
  have h' : db.orders.find? (fun x => x.id == oid && !x.deleted) = some o := h
  have hq := List.find?_some h'
  refine ⟨?_, ?_, ?_, ?_, ?_, ?_, ?_⟩
  all_goals simp only [updateOrderStatusPrim, h']
  · show (List.map _ db.orders).find? _ = _
    rw [find?_map_pred _ _ (fun x => by
      by_cases hc : (x.id == oid && !x.deleted) = true
      · rw [if_pos hc]
      · rw [if_neg hc]), h']
    show some (if (o.id == oid && !o.deleted) = true then { o with status := st } else o) = _
    rw [if_pos hq]

/-- The restore loop never touches the `orders` table, whatever its
outcome. -/
theorem restoreLoop_frame (fs : FailSpec) :
    ∀ (items : List OrderItem) (i : Nat) (db : DB),
      (restoreLoop fs items i db).2.orders = db.orders := by
  intro items
  induction items with
  | nil => intro i db; rfl
  | cons item rest ih =>
    intro i db
    unfold restoreLoop
    cases hp : getProductByID db item.productID with
    | none => exact ih (i + 1) db
    | some p =>
      by_cases hf : fs.restoreStockFail i
      · simp [hf]
      · simp only [Bool.not_eq_true] at hf
        simp only [hf, Bool.false_eq_true, if_false]
        exact (ih (i + 1) _).trans rfl

/-- The failure-free restore loop over items with distinct product ids:
it succeeds, adds each item's quantity back to its product's stock (a
missing product is skipped), leaves other products alone and touches
only the `products` table. -/
theorem restoreLoop_spec (fs : FailSpec) (hf : ∀ i, fs.restoreStockFail i = false) :
    ∀ (items : List OrderItem) (i : Nat) (db : DB),
      (items.map (·.productID)).Nodup →
      ∃ db2, restoreLoop fs items i db = (.ok (), db2) ∧
        (∀ it ∈ items, ∀ p, getProductByID db it.productID = some p →
          getProductByID db2 it.productID = some { p with stock := p.stock + it.quantity }) ∧
        (∀ x, x ∉ items.map (·.productID) → getProductByID db2 x = getProductByID db x) ∧
        db2.orders = db.orders ∧ db2.orderItems = db.orderItems ∧
        db2.carts = db.carts ∧ db2.cartItems = db.cartItems ∧ db2.idemKeys = db.idemKeys := by
  intro items
  induction items with
  | nil =>
    intro i db _
    exact ⟨db, rfl, by simp, fun x _ => rfl, rfl, rfl, rfl, rfl, rfl⟩
  | cons item rest ih =>
    intro i db hnd
    have hnd' : (∀ y ∈ rest, ¬ y.productID = item.productID) ∧
        (rest.map (·.productID)).Nodup := by simpa using hnd
    have hnotin : item.productID ∉ rest.map (·.productID) := by
      intro hc
      obtain ⟨y, hy, hyeq⟩ := List.mem_map.mp hc
      exact hnd'.1 y hy hyeq
    cases hp : getProductByID db item.productID with
    | none =>
      obtain ⟨db2, hrun, hstocks, hother, ho, hoi, hc, hci, hik⟩ := ih (i + 1) db hnd'.2
      refine ⟨db2, ?_, ?_, ?_, ho, hoi, hc, hci, hik⟩
      · unfold restoreLoop
        rw [hp]
        exact hrun
      · intro it hit p hpit
        rcases List.mem_cons.mp hit with rfl | hrest
        · rw [hp] at hpit
          cases hpit
        · exact hstocks it hrest p hpit
      · intro x hx
        exact hother x (by intro hc2; exact hx (by simp [hc2]))
    | some p =>
      have hp' : db.products.find? (fun q => q.id == item.productID && !q.deleted) = some p := hp
      have hq0 := List.find?_some hp'
      have hpid : p.id = item.productID := by
        simpa using (Bool.and_eq_true .. |>.mp hq0).1
      obtain ⟨db2, hrun, hstocks, hother, ho, hoi, hc, hci, hik⟩ :=
        ih (i + 1) (updateProductStock db p.id (p.stock + item.quantity)) hnd'.2
      refine ⟨db2, ?_, ?_, ?_, ?_, ?_, ?_, ?_, ?_⟩
      · unfold restoreLoop
        rw [hp]
        simp only [hf i, Bool.false_eq_true, if_false]
        exact hrun
      · intro it hit q hq
        rcases List.mem_cons.mp hit with rfl | hrest
        · rw [hp] at hq
          obtain rfl : p = q := Option.some.inj hq
          rw [hother it.productID hnotin]
          have hps : getProductByID (updateProductStock db p.id (p.stock + it.quantity))
              p.id = some { p with stock := p.stock + it.quantity } :=
            getProductByID_update_self db p.id (p.stock + it.quantity)
              (by rw [hpid]; exact hp)
          rw [← hpid]
          exact hps
        · have hne2 : it.productID ≠ p.id := by
            rw [hpid]
            exact fun hc2 => hnd'.1 it hrest hc2
          rw [hstocks it hrest q (by rw [getProductByID_update_ne db p.id _ _ hne2]; exact hq)]
      · intro x hx
        have hx1 : x ≠ item.productID := fun hc2 => hx (by simp [hc2])
        have hx2 : x ∉ rest.map (·.productID) := fun hc2 => hx (by simp [hc2])
        rw [hother x hx2, getProductByID_update_ne db p.id _ _ (by rw [hpid]; exact hx1)]
      · exact ho.trans rfl
      · exact hoi.trans rfl
      · exact hc.trans rfl
      · exact hci.trans rfl
      · exact hik.trans rfl

/-- `getProductByID` reads only the `products` table. -/
theorem getProductByID_congr {db1 db2 : DB} (h : db1.products = db2.products) (x : Int) :
    getProductByID db1 x = getProductByID db2 x := by
  unfold getProductByID
  rw [h]

/-- `getOrderByID` reads only the `orders` table. -/
theorem getOrderByID_congr {db1 db2 : DB} (h : db1.orders = db2.orders) (x : Int) :
    getOrderByID db1 x = getOrderByID db2 x := by
  unfold getOrderByID
  rw [h]

/-- The failure-free restore loop always reports success, even when some
item's product is missing (the `continue` silently skips it). -/
theorem restoreLoop_ok (fs : FailSpec) (hfr : ∀ i, fs.restoreStockFail i = false) :
    ∀ (items : List OrderItem) (i : Nat) (db : DB),
      (restoreLoop fs items i db).1 = .ok () := by
  intro items
  induction items with
  | nil => intro i db; rfl
  | cons item rest ih =>
    intro i db
    unfold restoreLoop
    cases hp : getProductByID db item.productID with
    | none => exact ih (i + 1) db
    | some p =>
      simp only [hfr i, Bool.false_eq_true, if_false]
      exact ih (i + 1) _

/-- Once the three checks pass and the status write succeeds,
`CancelOrder` is the restoration loop run on the already-cancelled
state: the status change is persisted before restoration begins. -/
theorem cancelOrder_after_checks (fs : FailSpec) (u oid : Int) (db : DB) (o : Order)
    (hf5 : fs.cancelUpdateStatusFail = false) (hf7 : fs.cancelListItemsFail = false)
    (hord : getOrderByID db oid = some o) (huid : o.userID = u) (hst : o.status = .pending) :
    CancelOrder fs u oid db =
      (match restoreLoop fs (listOrderItems (updateOrderStatusPrim db oid .cancelled).2 oid) 0
          (updateOrderStatusPrim db oid .cancelled).2 with
       | (.error e, db2) => (.error e, db2)
       | (.ok _, db2) => (.ok { o with status := .cancelled }, db2)) := by
  have hspec := updateOrderStatusPrim_spec .cancelled hord
  unfold CancelOrder
  rw [hord]
  have h1 : (o.userID != u) = false := by simp [huid]
  have h2 : (o.status != OrderStatus.pending) = false := by simp [hst]
  rcases hprim : updateOrderStatusPrim db oid .cancelled with ⟨w, db1⟩
  have hw : w = some { o with status := .cancelled } := by
    have := hspec.1
    rw [hprim] at this
    simpa using this
  subst hw
  simp only [h1, h2, Bool.false_eq_true, if_false, hf5, hf7]

/-- Full characterization of a successful cancellation: the checks pass,
the status becomes `cancelled`, and the failure-free restoration adds
each item's quantity back to its product's stock. -/
theorem cancelOrder_ok_spec (fs : FailSpec) (u oid : Int) (db : DB) (o : Order)
    (hf5 : fs.cancelUpdateStatusFail = false) (hf7 : fs.cancelListItemsFail = false)
    (hfr : ∀ i, fs.restoreStockFail i = false)
    (hord : getOrderByID db oid = some o) (huid : o.userID = u) (hst : o.status = .pending)
    (hnodup : ((listOrderItems db oid).map (·.productID)).Nodup) :
    ∃ db', CancelOrder fs u oid db = (.ok { o with status := .cancelled }, db') ∧
      getOrderByID db' oid = some { o with status := .cancelled } ∧
      (∀ it ∈ listOrderItems db oid, ∀ p, getProductByID db it.productID = some p →
        getProductByID db' it.productID = some { p with stock := p.stock + it.quantity }) ∧
      (∀ x, x ∉ (listOrderItems db oid).map (·.productID) →
        getProductByID db' x = getProductByID db x) ∧
      db'.orderItems = db.orderItems := by
  obtain ⟨hprim1, hord1, hpr, hoi, hcrt, hcit, hik⟩ := updateOrderStatusPrim_spec .cancelled hord
  have hitems : listOrderItems (updateOrderStatusPrim db oid .cancelled).2 oid =
      listOrderItems db oid := listOrderItems_congr hoi oid
  obtain ⟨db2, hrl, hstocks, hother, ho2, hoi2, hc2, hci2, hik2⟩ :=
    restoreLoop_spec fs hfr (listOrderItems (updateOrderStatusPrim db oid .cancelled).2 oid) 0
      (updateOrderStatusPrim db oid .cancelled).2 (by rw [hitems]; exact hnodup)
  refine ⟨db2, ?_, ?_, ?_, ?_, ?_⟩
  · rw [cancelOrder_after_checks fs u oid db o hf5 hf7 hord huid hst, hrl]
  · exact (getOrderByID_congr ho2 oid).trans hord1
  · intro it hit p hp
    refine hstocks it (by rw [hitems]; exact hit) p ?_
    rw [getProductByID_congr hpr]
    exact hp
  · intro x hx
    rw [hother x (by rw [hitems]; exact hx)]
    exact getProductByID_congr hpr x
  · exact hoi2.trans hoi

/-- A cancellation attempt on a live order that is not pending fails
`OrderNotCancellable` without touching the state. -/
theorem cancelOrder_not_pending (fs : FailSpec) (u oid : Int) (db : DB) (o : Order)
    (hord : getOrderByID db oid = some o) (huid : o.userID = u) (hst : o.status ≠ .pending) :
    CancelOrder fs u oid db = (.error .orderNotCancellable, db) := by
  unfold CancelOrder
  rw [hord]
  have h1 : (o.userID != u) = false := by simp [huid]
  have h2 : (o.status != OrderStatus.pending) = true := by
    simp only [bne_iff_ne, ne_eq]
    exact fun hc => hst hc
  simp only [h1, h2, Bool.false_eq_true, if_false, if_true]

/-- C6: `CancelOrder` on an absent order fails `OrderNotFound`; on a
foreign order fails `UnauthorizedOrder`; on a non-pending order fails
`OrderNotCancellable`; on the caller's own pending order it sets the
status to `cancelled` and adds each order item's quantity back to its
product's stock, and a second cancellation of the same order then fails
`OrderNotCancellable`. -/
theorem C6_cancelOrder_spec (u oid : Int) (db : DB) :
    (getOrderByID db oid = none → CancelOrder noFail u oid db = (.error .orderNotFound, db)) ∧
    (∀ o, getOrderByID db oid = some o → o.userID ≠ u →
      CancelOrder noFail u oid db = (.error .unauthorizedOrder, db)) ∧
    (∀ o, getOrderByID db oid = some o → o.userID = u → o.status ≠ .pending →
      CancelOrder noFail u oid db = (.error .orderNotCancellable, db)) ∧
    (∀ o, getOrderByID db oid = some o → o.userID = u → o.status = .pending →
      ((listOrderItems db oid).map (·.productID)).Nodup →
      ∃ db', CancelOrder noFail u oid db = (.ok { o with status := .cancelled }, db') ∧
        (∀ it ∈ listOrderItems db oid, ∀ p, getProductByID db it.productID = some p →
          productStock db' it.productID = some (p.stock + it.quantity)) ∧
        (∀ x, x ∉ (listOrderItems db oid).map (·.productID) →
          productStock db' x = productStock db x) ∧
        CancelOrder noFail u oid db' = (.error .orderNotCancellable, db')) := by
  refine ⟨?_, ?_, ?_, ?_⟩
  · intro h
    unfold CancelOrder
    rw [h]
  · intro o hord huid
    unfold CancelOrder
    rw [hord]
    have h1 : (o.userID != u) = true := by
      simp only [bne_iff_ne, ne_eq]
      exact huid
    simp only [h1, if_true]
  · intro o hord huid hst
    exact cancelOrder_not_pending noFail u oid db o hord huid hst
  · intro o hord huid hst hnodup
    obtain ⟨db', hrun, hord', hstocks, hother, _⟩ :=
      cancelOrder_ok_spec noFail u oid db o rfl rfl (fun _ => rfl) hord huid hst hnodup
    refine ⟨db', hrun, ?_, ?_, ?_⟩
    · intro it hit p hp
      rw [productStock, hstocks it hit p hp]
      rfl
    · intro x hx
      rw [productStock, productStock, hother x hx]
    · exact cancelOrder_not_pending noFail u oid db' _ hord'
        (by simpa using huid) (by simp)

/-- A pending order 50 of user 7 with items (product 1, qty 2) and
(product 2, qty 1); product stocks 8 and 1. -/
def dbC6 : DB :=
  ⟨[⟨1, 500, 8, false⟩, ⟨2, 300, 1, false⟩], [], [],
   [⟨50, 7, .pending, 1300, false⟩], [⟨60, 50, 1, 2, 500, false⟩, ⟨61, 50, 2, 1, 300, false⟩],
   [], 51, 62, 1, 1⟩

/-- Witness for C6: cancelling order 50 restores both stocks by exactly
the ordered quantities, and a second cancel fails. -/
theorem C6_witness :
    ∃ db', CancelOrder noFail 7 50 dbC6 = (.ok ⟨50, 7, .cancelled, 1300, false⟩, db') ∧
      productStock db' 1 = some 10 ∧ productStock db' 2 = some 2 ∧
      CancelOrder noFail 7 50 db' = (.error .orderNotCancellable, db') := by
  obtain ⟨db', hrun, hstocks, _, hsecond⟩ :=
    (C6_cancelOrder_spec 7 50 dbC6).2.2.2 ⟨50, 7, .pending, 1300, false⟩ (by decide) rfl rfl
      (by decide)
  refine ⟨db', hrun, ?_, ?_, hsecond⟩
  · have := hstocks ⟨60, 50, 1, 2, 500, false⟩ (by decide) ⟨1, 500, 8, false⟩ (by decide)
    simpa using this
  · have := hstocks ⟨61, 50, 2, 1, 300, false⟩ (by decide) ⟨2, 300, 1, false⟩ (by decide)
    simpa using this

/-- C7 (amended): `CancelOrder` persists the `cancelled` status before
restoring stock and outside any transaction.  If restoration fails the
call surfaces an error but the order remains cancelled (the status
change is not rolled back), and with no storage failures the call
reports success even when an item's product is missing — that item's
restoration is silently skipped. -/
theorem C7_cancel_partial_persists (fs : FailSpec) (u oid : Int) (db : DB) (o : Order) (e : Err)
    (hf5 : fs.cancelUpdateStatusFail = false) (hf7 : fs.cancelListItemsFail = false)
    (hord : getOrderByID db oid = some o) (huid : o.userID = u) (hst : o.status = .pending) :
    ((CancelOrder fs u oid db).1 = .error e →
      getOrderByID (CancelOrder fs u oid db).2 oid = some { o with status := .cancelled }) ∧
    ((∀ i, fs.restoreStockFail i = false) →
      ∃ db', CancelOrder fs u oid db = (.ok { o with status := .cancelled }, db')) := by
  have hshape := cancelOrder_after_checks fs u oid db o hf5 hf7 hord huid hst
  obtain ⟨hprim1, hord1, hpr, hoi, _, _, _⟩ := updateOrderStatusPrim_spec .cancelled hord
  constructor
  · intro _
    rw [hshape]
    rcases hrl : restoreLoop fs
        (listOrderItems (updateOrderStatusPrim db oid .cancelled).2 oid) 0
        (updateOrderStatusPrim db oid .cancelled).2 with ⟨res, db2⟩
    have hord2 : getOrderByID db2 oid = some { o with status := .cancelled } := by
      have hfr := restoreLoop_frame fs
        (listOrderItems (updateOrderStatusPrim db oid .cancelled).2 oid) 0
        (updateOrderStatusPrim db oid .cancelled).2
      rw [hrl] at hfr
      exact (getOrderByID_congr hfr oid).trans hord1
    cases res with
    | error e2 => simpa using hord2
    | ok r => simpa using hord2
  · intro hfr
    rw [hshape]
    rcases hrl : restoreLoop fs
        (listOrderItems (updateOrderStatusPrim db oid .cancelled).2 oid) 0
        (updateOrderStatusPrim db oid .cancelled).2 with ⟨res, db2⟩
    have hok := restoreLoop_ok fs hfr
      (listOrderItems (updateOrderStatusPrim db oid .cancelled).2 oid) 0
      (updateOrderStatusPrim db oid .cancelled).2
    rw [hrl] at hok
    obtain rfl : res = .ok () := by simpa using hok
    exact ⟨db2, by simp⟩

/-- The C6 state with product 2's row soft-deleted: order 50 still has
an item for product 2. -/
def dbC7b : DB :=
  ⟨[⟨1, 500, 8, false⟩, ⟨2, 300, 1, true⟩], [], [],
   [⟨50, 7, .pending, 1300, false⟩], [⟨60, 50, 1, 2, 500, false⟩, ⟨61, 50, 2, 1, 300, false⟩],
   [], 51, 62, 1, 1⟩

/-- A run whose second stock restoration fails. -/
def fsRestoreFail : FailSpec :=
  { noFail with restoreStockFail := fun i => i == 1 }

/-- Counterexample for C7 as stated.  With a restoration failure on the
second item, `CancelOrder` returns an error yet the order is left in
status `cancelled` with that item's stock not restored — the status
change is not aborted.  And with an item whose product is missing, the
cancellation reports success, silently skipping that restoration. -/
theorem C7_counterexample :
    ((CancelOrder fsRestoreFail 7 50 dbC6).1 = .error (.storage 6) ∧
     (getOrderByID (CancelOrder fsRestoreFail 7 50 dbC6).2 50).map (·.status) =
       some .cancelled ∧
     productStock (CancelOrder fsRestoreFail 7 50 dbC6).2 2 = some 1) ∧
    ((CancelOrder noFail 7 50 dbC7b).1 = .ok ⟨50, 7, .cancelled, 1300, false⟩ ∧
     getProductByID dbC7b 2 = none) := by
  decide

/-- Witness for the amended C7: at the failing run the order reads back
cancelled. -/
theorem C7_witness :
    getOrderByID (CancelOrder fsRestoreFail 7 50 dbC6).2 50 =
      some ⟨50, 7, .cancelled, 1300, false⟩ :=
  (C7_cancel_partial_persists fsRestoreFail 7 50 dbC6 ⟨50, 7, .pending, 1300, false⟩
    (.storage 6) rfl rfl (by decide) rfl rfl).1 (by decide)

/-- C8: `AddToCart` applies merge-into-active → resurrect-soft-deleted →
insert-new in that order.  Starting from a cart with no row at all for
product `P`, adding `P` with quantity 2, removing it, then re-adding `P`
with quantity 3 succeeds at every step and leaves exactly one row for
`(cart, P)` — active, quantity 3, and still the same primary key: the
re-add resurrects the soft-deleted row and overwrites its quantity
instead of inserting a duplicate. -/
theorem C8_addToCart_merge_policy (u P : Int) (db : DB) (cart : Cart) (product : Product)
    (hcart : getCartByUserID db u = some cart)
    (hprod : getProductByID db P = some product)
    (hstock : 3 ≤ product.stock)
    (hnorow : ∀ it ∈ db.cartItems, ¬(it.cartID = cart.id ∧ it.productID = P))
    (hids : ∀ it ∈ db.cartItems, it.id < db.nextCartItemID) :
    (AddToCart u P 2 db).1 = .ok () ∧
    (RemoveCartItem u db.nextCartItemID (AddToCart u P 2 db).2).1 = .ok () ∧
    (AddToCart u P 3 (RemoveCartItem u db.nextCartItemID (AddToCart u P 2 db).2).2).1 = .ok () ∧
    List.filter (fun it => it.cartID == cart.id && it.productID == P)
        (AddToCart u P 3 (RemoveCartItem u db.nextCartItemID (AddToCart u P 2 db).2).2).2.cartItems =
      [⟨db.nextCartItemID, cart.id, P, 3, false⟩] := by
  have hlt2 : ¬ product.stock < 2 := by omega
  have hlt3 : ¬ product.stock < 3 := by omega
  have hfilterF : ∀ it ∈ db.cartItems, (it.cartID == cart.id && it.productID == P) = false := by
    intro it hit
    have h := hnorow it hit
    by_cases h1 : it.cartID = cart.id
    · have h2 : ¬ it.productID = P := fun hp => h ⟨h1, hp⟩
      have h2' : (it.productID == P) = false := beq_eq_false_iff_ne.mpr h2
      simp [h2']
    · have h1' : (it.cartID == cart.id) = false := beq_eq_false_iff_ne.mpr h1
      simp [h1']
  have hpredF : ∀ it ∈ db.cartItems,
      (it.cartID == cart.id && it.productID == P && !it.deleted) = false := by
    intro it hit
    rw [hfilterF it hit]
    exact Bool.false_and _
  have hpredF2 : ∀ it ∈ db.cartItems,
      (it.cartID == cart.id && it.productID == P && it.deleted) = false := by
    intro it hit
    rw [hfilterF it hit]
    exact Bool.false_and _
  have hnone1 : db.cartItems.find?
      (fun it => it.cartID == cart.id && it.productID == P && !it.deleted) = none := by
    rw [List.find?_eq_none]
    intro it hit hp
    rw [hpredF it hit] at hp
    simp at hp
  have hdel1 : db.cartItems.find?
      (fun it => it.cartID == cart.id && it.productID == P && it.deleted) = none := by
    rw [List.find?_eq_none]
    intro it hit hp
    rw [hpredF2 it hit] at hp
    simp at hp
  have h1 : AddToCart u P 2 db =
      (.ok (), { db with cartItems := db.cartItems ++ [⟨db.nextCartItemID, cart.id, P, 2, false⟩], nextCartItemID := db.nextCartItemID + 1 }) := by
    simp only [AddToCart, GetOrCreateCart, hcart, hprod, if_neg hlt2, getCartItem, hnone1,
      restoreCartItem, hdel1, createCartItem]
  have hold_ne : ∀ it ∈ db.cartItems, ((it.id == db.nextCartItemID) && !it.deleted) = false := by
    intro it hit
    have h := hids it hit
    have h' : (it.id == db.nextCartItemID) = false := beq_eq_false_iff_ne.mpr (by omega)
    simp [h']
  have hcart1 : getCartByUserID { db with cartItems := db.cartItems ++ [⟨db.nextCartItemID, cart.id, P, 2, false⟩], nextCartItemID := db.nextCartItemID + 1 } u = some cart :=
    (getCartByUserID_congr rfl u).trans hcart
  have hfind : (db.cartItems ++ [(⟨db.nextCartItemID, cart.id, P, 2, false⟩ : CartItem)]).find?
      (fun it => it.id == db.nextCartItemID && !it.deleted) =
      some ⟨db.nextCartItemID, cart.id, P, 2, false⟩ := by
    rw [find?_append_left_none hold_ne]
    rw [List.find?_cons_of_pos _ (by simp)]
  have hmap : db.cartItems.map (fun it => if it.id == db.nextCartItemID && !it.deleted then { it with deleted := true } else it) = db.cartItems :=
    map_id_of_fix (fun it hit => by simp [hold_ne it hit])
  have h2 : RemoveCartItem u db.nextCartItemID (AddToCart u P 2 db).2 =
      (.ok (), { db with cartItems := db.cartItems ++ [⟨db.nextCartItemID, cart.id, P, 2, true⟩], nextCartItemID := db.nextCartItemID + 1 }) := by
    rw [h1]
    simp only [RemoveCartItem, hcart1, getCartItemByID, hfind, bne_self_eq_false,
      softDeleteCartItem, List.map_append, hmap]
    simp
  have hcart2 : getCartByUserID { db with cartItems := db.cartItems ++ [⟨db.nextCartItemID, cart.id, P, 2, true⟩], nextCartItemID := db.nextCartItemID + 1 } u = some cart :=
    (getCartByUserID_congr rfl u).trans hcart
  have hprod2 : getProductByID { db with cartItems := db.cartItems ++ [⟨db.nextCartItemID, cart.id, P, 2, true⟩], nextCartItemID := db.nextCartItemID + 1 } P = some product :=
    (getProductByID_congr rfl P).trans hprod
  have hnone2 : (db.cartItems ++ [(⟨db.nextCartItemID, cart.id, P, 2, true⟩ : CartItem)]).find?
      (fun it => it.cartID == cart.id && it.productID == P && !it.deleted) = none := by
    rw [find?_append_left_none hpredF]
    simp
  have hfind2 : (db.cartItems ++ [(⟨db.nextCartItemID, cart.id, P, 2, true⟩ : CartItem)]).find?
      (fun it => it.cartID == cart.id && it.productID == P && it.deleted) =
      some ⟨db.nextCartItemID, cart.id, P, 2, true⟩ := by
    rw [find?_append_left_none hpredF2]
    rw [List.find?_cons_of_pos _ (by simp)]
  have hmap2 : db.cartItems.map (fun x => if x.cartID == cart.id && x.productID == P && x.deleted then { x with quantity := 3, deleted := false } else x) = db.cartItems :=
    map_id_of_fix (fun x hx => by simp [hpredF2 x hx])
  have h3 : AddToCart u P 3 (RemoveCartItem u db.nextCartItemID (AddToCart u P 2 db).2).2 =
      (.ok (), { db with cartItems := db.cartItems ++ [⟨db.nextCartItemID, cart.id, P, 3, false⟩], nextCartItemID := db.nextCartItemID + 1 }) := by
    rw [h2]
    simp only [AddToCart, GetOrCreateCart, hcart2, hprod2, if_neg hlt3, getCartItem, hnone2,
      restoreCartItem, hfind2, List.map_append, hmap2]
    simp
  refine ⟨by rw [h1], by rw [h2], by rw [h3], ?_⟩
  rw [h3]
  simp only [List.filter_append, filter_none hfilterF]
  simp

/-- State for the C8 witness: user 7 owns cart 1, product 1 is live with
price 5 and stock 10, and the cart has no items yet; the next cart-item
id is 30. -/
def dbA : DB :=
  ⟨[⟨1, 5, 10, false⟩], [⟨1, 7, false⟩], [], [], [], [], 1, 1, 2, 30⟩

/-- Witness for C8: the concrete add-remove-re-add run on `dbA` leaves
exactly the single active row with quantity 3. -/
theorem C8_witness :
    List.filter (fun it => it.cartID == 1 && it.productID == 1)
        (AddToCart 7 1 3 (RemoveCartItem 7 dbA.nextCartItemID (AddToCart 7 1 2 dbA).2).2).2.cartItems =
      [⟨30, 1, 1, 3, false⟩] :=
  (C8_addToCart_merge_policy 7 1 dbA ⟨1, 7, false⟩ ⟨1, 5, 10, false⟩ (by decide) (by decide)
    (by decide) (by decide) (by decide)).2.2.2

/-- When the product's remaining stock is short of one unit, every
serialized one-unit conversion fails `InsufficientStock` and leaves the
state untouched. -/
theorem runSerial_all_insufficient (pid : Int) (p : Product) (users : List Int)
    (cid : Int → Int) (db : DB)
    (hpids : (db.products.map (·.id)).Nodup)
    (hp : getProductByID db pid = some p) (hs : p.stock < 1)
    (hcarts : ∀ u ∈ users, ∃ cart, getCartByUserID db u = some cart ∧ cart.id = cid u ∧
      ∃ iid, listCartItems db (cid u) = [⟨iid, cid u, pid, 1, false⟩]) :
    runSerial noFail users db = (users.map (fun _ => .error .insufficientStock), db) := by
  induction users with
  | nil => rfl
  | cons u rest ih =>
    obtain ⟨cart, hc, hcid, iid, hli⟩ := hcarts u (by simp)
    have hli' : listCartItems db cart.id = [⟨iid, cid u, pid, 1, false⟩] := by
      rw [hcid]
      exact hli
    have htx : orderTxBody noFail u cart.id (listCartItems db cart.id) db =
        .error .insufficientStock := by
      apply orderTxBody_insufficient noFail u cart.id _ db rfl ?_ hpids ?_ ?_
      · rw [hli']
        simp
      · intro it hit
        rw [hli'] at hit
        obtain rfl := List.mem_singleton.mp hit
        simp [hp]
      · refine ⟨⟨iid, cid u, pid, 1, false⟩, by rw [hli']; exact List.mem_singleton_self _,
          fun q hq => ?_⟩
        have hq' : getProductByID db pid = some q := hq
        rw [hp] at hq'
        obtain rfl := Option.some.inj hq'
        exact hs
    have hcall : CreateOrderFromCart noFail u db = (.error .insufficientStock, db) :=
      createOrderFromCart_err_build noFail u db cart _ hc (by rw [hli']; rfl) htx
    have ih' := ih (fun u' hu' => hcarts u' (by simp [hu']))
    simp only [runSerial, hcall, ih', List.map_cons]

/-- C3: with one unit of stock and any number of serialized one-unit
conversions by distinct users, the first call succeeds, every later call
fails `InsufficientStock` against the committed zero stock, and the final
stock is exactly 0 — never negative.  (spec-modelled: concurrency is
modelled as the serialized execution `runSerial` justified by the
exclusive row lock.) -/
theorem C3_oversell_prevented (pid : Int) (p : Product) (u0 : Int) (rest : List Int)
    (cid : Int → Int) (db : DB)
    (hpids : (db.products.map (·.id)).Nodup)
    (hp : getProductByID db pid = some p) (hs : p.stock = 1)
    (hnd : (u0 :: rest).Nodup)
    (hcarts : ∀ u ∈ u0 :: rest, ∃ cart, getCartByUserID db u = some cart ∧ cart.id = cid u ∧
      ∃ iid, listCartItems db (cid u) = [⟨iid, cid u, pid, 1, false⟩])
    (hinj : ∀ u ∈ u0 :: rest, ∀ u' ∈ u0 :: rest, u ≠ u' → cid u ≠ cid u') :
    (∃ o, (runSerial noFail (u0 :: rest) db).1 =
        .ok o :: rest.map (fun _ => .error .insufficientStock)) ∧
    productStock (runSerial noFail (u0 :: rest) db).2 pid = some 0 := by
  obtain ⟨cart0, hc0, hcid0, iid0, hli0⟩ := hcarts u0 (by simp)
  have hli0' : listCartItems db cart0.id = [⟨iid0, cid u0, pid, 1, false⟩] := by
    rw [hcid0]
    exact hli0
  obtain ⟨total, db', hrun, hdec, hoth, hcarts', hik, hord, hno, hpid', hclr, hclro, hcis⟩ :=
    createOrderFromCart_ok_spec noFail u0 db cart0 rfl rfl rfl (fun _ => rfl) (fun _ => rfl)
      hc0 (by rw [hli0']; rfl) (by rw [hli0']; simp) hpids
      (fun it hit => by
        rw [hli0'] at hit
        obtain rfl := List.mem_singleton.mp hit
        exact ⟨p, hp, by show (1 : Int) ≤ p.stock; omega⟩)
  have hmem0 : (⟨iid0, cid u0, pid, 1, false⟩ : CartItem) ∈ listCartItems db cart0.id := by
    rw [hli0']
    exact List.mem_singleton_self _
  have hp' : getProductByID db' pid = some { p with stock := p.stock - 1 } := hdec _ hmem0 p hp
  have hs' : ({ p with stock := p.stock - 1 } : Product).stock < 1 := by
    show p.stock - 1 < 1
    omega
  have hpids' : (db'.products.map (·.id)).Nodup := by
    rw [hpid']
    exact hpids
  have hcartsRest : ∀ u ∈ rest, ∃ cart, getCartByUserID db' u = some cart ∧ cart.id = cid u ∧
      ∃ iid, listCartItems db' (cid u) = [⟨iid, cid u, pid, 1, false⟩] := by
    intro u hu
    obtain ⟨c, hc, hcid, iid, hli⟩ := hcarts u (by simp [hu])
    have hne : cid u ≠ cart0.id := by
      rw [hcid0]
      refine hinj u (by simp [hu]) u0 (by simp) ?_
      intro he
      subst he
      exact (List.nodup_cons.mp hnd).1 hu
    exact ⟨c, (getCartByUserID_congr hcarts' u).trans hc, hcid, iid,
      (hclro (cid u) hne).trans hli⟩
  have hallfail := runSerial_all_insufficient pid { p with stock := p.stock - 1 } rest cid db'
    hpids' hp' hs' hcartsRest
  constructor
  · refine ⟨⟨db.nextOrderID, u0, .pending, total, false⟩, ?_⟩
    simp only [runSerial, hrun, hallfail]
  · simp only [runSerial, hrun, hallfail, productStock, hp', Option.map_some]
    show some (p.stock - 1) = some 0
    rw [hs]
    rfl

/-- State for the C3 witness: one product with a single unit of stock,
two users with carts 1 and 2 each holding one unit of it. -/
def dbC3 : DB :=
  ⟨[⟨1, 500, 1, false⟩], [⟨1, 7, false⟩, ⟨2, 8, false⟩],
   [⟨1, 1, 1, 1, false⟩, ⟨2, 2, 1, 1, false⟩], [], [], [], 50, 60, 3, 3⟩

/-- Witness for C3: of the two serialized one-unit orders against one
unit of stock, the first succeeds, the second fails `InsufficientStock`,
and the stock ends at 0. -/
theorem C3_witness :
    (∃ o, (runSerial noFail [7, 8] dbC3).1 =
        .ok o :: [.error .insufficientStock]) ∧
    productStock (runSerial noFail [7, 8] dbC3).2 1 = some 0 := by
  refine C3_oversell_prevented 1 ⟨1, 500, 1, false⟩ 7 [8] (fun u => u - 6) dbC3
    (by decide) (by decide) rfl (by decide) ?_ ?_
  · intro u hu
    rcases List.mem_cons.mp hu with rfl | hu'
    · exact ⟨⟨1, 7, false⟩, by decide, by decide, 1, by decide⟩
    · obtain rfl := List.mem_singleton.mp hu'
      exact ⟨⟨2, 8, false⟩, by decide, by decide, 2, by decide⟩
  · intro u hu u' hu' hne
    show u - 6 ≠ u' - 6
    omega

end GoAiStore
